import Mathlib

/-!
Verification of the raw Figma JSON normalization pipeline
(`packages/web-api/src/raw-processor.ts`).

The TypeScript source is shallowly embedded below.  JavaScript numbers are
modelled as exact rationals (`ℚ`); `Math.PI` is the rational value of the
IEEE-754 double `3.141592653589793`.  JavaScript `undefined` is modelled with
`Option`; JavaScript truthiness of strings/numbers is modelled explicitly
(`jsTruthyStr`, `truthyQ`, `jsOrStr`, `jsOrQn`).  The in-place mutations the
code performs on the raw input tree (`fill.resolvedImageUrl`,
`fill.variableColorName`, `child._flattenedIntoParent`) are modelled by
returning the updated raw tree alongside the produced node.  The one
exception path a per-node `try/catch` can observe (a `name` value that is
present but not a string, so that `rawNode.name?.trim()` throws a TypeError
before anything else happens) is modelled with `Except`.
-/

/-- Exact rational value of the IEEE-754 double `Math.PI`. -/
def mathPI : ℚ := 3141592653589793 / 1000000000000000

/-- JavaScript truthiness of a possibly-undefined string (`undefined` and `""` are falsy). -/
def jsTruthyStr (o : Option String) : Bool :=
  match o with
  | some s => !(s == "")
  | none => false

/-- JavaScript truthiness of a possibly-undefined number (`undefined` and `0` are falsy). -/
def truthyQ (o : Option ℚ) : Bool :=
  match o with
  | some q => !decide (q = 0)
  | none => false

/-- JavaScript `o || d` for a possibly-undefined string. -/
def jsOrStr (o : Option String) (d : String) : String :=
  match o with
  | some s => if s == "" then d else s
  | none => d

/-- JavaScript `o || d` for a possibly-undefined number. -/
def jsOrQn (o : Option ℚ) (d : ℚ) : ℚ :=
  match o with
  | some q => if q = 0 then d else q
  | none => d

/-- JavaScript `Math.round` (round half towards positive infinity). -/
def jsRound (q : ℚ) : ℤ := ⌊q + 1 / 2⌋

/-- Decimal digit character. -/
def decDigitChar (n : ℕ) : Char := Char.ofNat (48 + n)

/-- Digit-list builder for decimal rendering; the fuel argument dominates the
number of digits, so the result is independent of it (see `natDecAux_fuel`). -/
def natDecAux : ℕ → ℕ → List Char
  | 0, _ => []
  | fuel + 1, n =>
    if n < 10 then [decDigitChar n]
    else natDecAux fuel (n / 10) ++ [decDigitChar (n % 10)]

/-- Decimal rendering of a natural number (JavaScript `n.toString()`). -/
def natDec (n : ℕ) : String := String.mk (natDecAux (n + 1) n)

/-- Decimal rendering of an integer. -/
def intDec (i : ℤ) : String :=
  if i < 0 then "-" ++ natDec i.natAbs else natDec i.toNat

/-- Hexadecimal digit character (lower case, as JavaScript `toString(16)`). -/
def hexDigitChar (n : ℕ) : Char :=
  if n < 10 then Char.ofNat (48 + n) else Char.ofNat (87 + n)

/-- Hexadecimal rendering of a natural number. -/
def natHex (n : ℕ) : String :=
  if _h : n < 16 then String.mk [hexDigitChar n]
  else natHex (n / 16) ++ String.mk [hexDigitChar (n % 16)]
termination_by n
decreasing_by
  exact Nat.div_lt_self (by omega) (by omega)

/-- JavaScript `i.toString(16)` for an integer. -/
def intHex (i : ℤ) : String :=
  if i < 0 then "-" ++ natHex i.natAbs else natHex i.toNat

/-- JavaScript `s.padStart(2, "0")`. -/
def padStart2 (s : String) : String :=
  String.mk (List.replicate (2 - s.length) '0') ++ s

/-- Two-digit zero-padded decimal counter (`count.toString().padStart(2, "0")`). -/
def pad2 (n : ℕ) : String := padStart2 (natDec n)

/-- JavaScript `s.trim()`: strip leading and trailing whitespace. -/
def jsTrim (s : String) : String :=
  String.mk (((s.data.dropWhile Char.isWhitespace).reverse.dropWhile
    Char.isWhitespace).reverse)

/-- JavaScript `s.slice (-n)`: the last `n` characters (the whole string if shorter). -/
def sliceLast (s : String) (n : ℕ) : String :=
  String.mk (s.data.drop (s.data.length - n))

/-- An RGB color with channels in `[0,1]`, as in Figma paints. -/
structure RGB where
  r : ℚ
  g : ℚ
  b : ℚ
  deriving DecidableEq

/-- A paint (fill or stroke) descriptor.  `boundVariableColorId` models
`paint.boundVariables?.color?.id`; `resolvedImageUrl` and `variableColorName`
are the two fields the processor writes into paint objects in place. -/
structure Paint where
  type : String
  visible : Option Bool
  color : Option RGB
  boundVariableColorId : Option String
  base64Url : Option String
  imageUrl : Option String
  resolvedImageUrl : Option String
  variableColorName : Option String
  deriving DecidableEq

/-- One entry of `fillGeometry`. -/
structure FillGeom where
  windingRule : String
  path : String
  deriving DecidableEq

/-- An effect descriptor (opaque to the processor). -/
structure Effect where
  type : String
  deriving DecidableEq

/-- An absolute bounding box. -/
structure BBox where
  x : ℚ
  y : ℚ
  width : ℚ
  height : ℚ
  deriving DecidableEq

/-- A raw `name` value.  The source reads it as `rawNode.name?.trim()`;
a present non-string value makes `.trim()` throw a TypeError, which is the
per-node exception path of the processor. -/
inductive RawName where
  | str (s : String)
  | nonString
  deriving DecidableEq

/-- A text line height descriptor. -/
structure LineHeight where
  unit : String
  value : Option ℚ
  deriving DecidableEq

/-- A font name, as produced for text segments. -/
structure FontName where
  family : String
  style : String
  deriving DecidableEq

/-- OpenType feature flags attached to each synthesized text segment. -/
structure OpenTypeFeatures where
  SUBS : Bool
  SUPS : Bool
  LIGA : Bool
  KERN : Bool
  deriving DecidableEq

/-- The raw `style` object of a TEXT node (Figma TypeStyle). -/
structure TextStyle where
  fontSize : Option ℚ
  fontFamily : Option String
  fontStyle : Option String
  fontWeight : Option ℚ
  letterSpacing : Option ℚ
  lineHeight : Option LineHeight
  textCase : Option String
  textDecoration : Option String
  deriving DecidableEq

/-- A synthesized styled text segment.  `endOffset` models the source field
named `end` (a Lean keyword). -/
structure TextSegment where
  characters : String
  uniqueId : String
  start : ℕ
  endOffset : ℕ
  fontSize : ℚ
  fontName : FontName
  fills : List Paint
  fontWeight : ℚ
  letterSpacing : ℚ
  lineHeight : LineHeight
  textCase : String
  textDecoration : String
  openTypeFeatures : OpenTypeFeatures
  deriving DecidableEq

/-- The pipeline-relevant settings fields. -/
structure Settings where
  embedVectors : Bool
  useColorVariables : Bool
  deriving DecidableEq

/-- The non-recursive fields of a raw node.  `flattenedIntoParent` models the
`_flattenedIntoParent` mark the processor writes into raw vector children. -/
structure RawProps where
  id : Option String
  type : String
  name : Option RawName
  visible : Option Bool
  absoluteBoundingBox : Option BBox
  rotation : Option ℚ
  layoutMode : Option String
  layoutSizingHorizontal : Option String
  layoutSizingVertical : Option String
  layoutGrow : Option ℚ
  primaryAxisAlignItems : Option String
  counterAxisAlignItems : Option String
  paddingLeft : Option ℚ
  paddingRight : Option ℚ
  paddingTop : Option ℚ
  paddingBottom : Option ℚ
  itemSpacing : Option ℚ
  primaryAxisSizingMode : Option String
  counterAxisSizingMode : Option String
  layoutPositioning : Option String
  fills : Option (List Paint)
  strokes : Option (List Paint)
  effects : Option (List Effect)
  fillGeometry : Option (List FillGeom)
  characters : Option String
  style : Option TextStyle
  flattenedIntoParent : Bool
  deriving DecidableEq

/-- A raw node: untyped JSON input of the processor. -/
inductive RawNode where
  | mk (props : RawProps) (children : Option (List RawNode))

/-- The props of a raw node. -/
def RawNode.props : RawNode → RawProps
  | .mk p _ => p

/-- The `children` field of a raw node (`none` models an absent field). -/
def RawNode.children : RawNode → Option (List RawNode)
  | .mk _ c => c

/-- The children of a raw node, with an absent field read as the empty list. -/
def RawNode.childList (r : RawNode) : List RawNode := r.children.getD []

mutual
/-- Structural size of a raw node (termination measure). -/
def RawNode.rsize : RawNode → ℕ
  | .mk _ none => 1
  | .mk _ (some l) => 1 + rsizeList l
/-- Structural size of a list of raw nodes. -/
def rsizeList : List RawNode → ℕ
  | [] => 0
  | c :: cs => 1 + c.rsize + rsizeList cs
end

/-- The computed fields of a produced node.  The spread `{...rawNode}` keeps
the raw fields listed first; the processor then assigns the derived ones. -/
structure AltProps where
  id : Option String
  type : String
  name : Option RawName
  visible : Option Bool
  absoluteBoundingBox : Option BBox
  layoutPositioning : Option String
  fillGeometry : Option (List FillGeom)
  characters : Option String
  uniqueName : String
  x : Option ℚ
  y : Option ℚ
  width : Option ℚ
  height : Option ℚ
  rotation : ℚ
  cumulativeRotation : ℚ
  layoutMode : String
  layoutSizingHorizontal : String
  layoutSizingVertical : String
  layoutGrow : ℚ
  primaryAxisAlignItems : String
  counterAxisAlignItems : String
  paddingLeft : ℚ
  paddingRight : ℚ
  paddingTop : ℚ
  paddingBottom : ℚ
  itemSpacing : Option ℚ
  primaryAxisSizingMode : Option String
  counterAxisSizingMode : Option String
  fills : List Paint
  strokes : List Paint
  effects : List Effect
  styledTextSegments : Option (List TextSegment)
  fontSize : Option ℚ
  fontFamily : Option String
  fontStyle : Option String
  fontWeight : Option ℚ
  letterSpacing : Option ℚ
  lineHeight : Option LineHeight
  textCase : Option String
  textDecoration : Option String
  canBeFlattened : Bool
  svg : Option String
  isRelative : Bool
  deriving DecidableEq

/-- A normalized node produced by the processor. -/
inductive AltNode where
  | mk (props : AltProps) (children : Option (List AltNode))

/-- The props of a produced node. -/
def AltNode.props : AltNode → AltProps
  | .mk p _ => p

/-- The children of a produced node (`none` models an absent field). -/
def AltNode.children : AltNode → Option (List AltNode)
  | .mk _ c => c

/-- The `uniqueName` of a produced node. -/
def AltNode.uname (a : AltNode) : String := a.props.uniqueName

/-- The result of processing one raw node: `null`, a single node, or — for
inlined GROUP nodes — a list of nodes spliced into the parent's sequence. -/
inductive ProcOut where
  | nullOut
  | singleOut (a : AltNode)
  | multiOut (l : List AltNode)

/-- What a `ProcOut` contributes to the surrounding child list. -/
def ProcOut.toList : ProcOut → List AltNode
  | .nullOut => []
  | .singleOut a => [a]
  | .multiOut l => l

/-- The ancestor context a child call reads from the parent node under
construction: `parent.absoluteBoundingBox`, `parent.cumulativeRotation` and
`parent.canBeFlattened` are all assigned before the children are visited. -/
structure ParentCtx where
  bbox : Option BBox
  cumulativeRotation : ℚ
  canBeFlattened : Bool

/-- The document-wide name counter (`Map` lookup with `|| 0`). -/
def NameMap : Type := String → ℕ

/-- Empty name counter (`new Map()`). -/
def NameMap.empty : NameMap := fun _ => 0

/-- Name counter update (`nameCounters.set`). -/
def NameMap.set (m : NameMap) (k : String) (v : ℕ) : NameMap :=
  fun x => if x = k then v else m x

/-- The unique name assigned at counter value `c`:
`count === 0 ? baseName : baseName + "_" + count.toString().padStart(2, "0")`. -/
def mkUnique (b : String) (c : ℕ) : String :=
  if c = 0 then b else b ++ "_" ++ pad2 c

/-- The trimmed base name: `rawNode.name?.trim() || "unnamed"`.  A present
non-string `name` makes `.trim()` throw. -/
def jsBaseName (n : Option RawName) : Except Unit String :=
  match n with
  | none => .ok "unnamed"
  | some (.str s) => .ok (if jsTrim s == "" then "unnamed" else jsTrim s)
  | some .nonString => .error ()

/-- Whether `fillGeometry` is a non-empty array
(`node.fillGeometry && node.fillGeometry.length > 0`). -/
def geomNonempty (o : Option (List FillGeom)) : Bool :=
  match o with
  | some l => !l.isEmpty
  | none => false

/-- The name sanitizer of `createTextSegments`:
`name.replace(/[^a-zA-Z0-9_-]/g, "").toLowerCase()`. -/
def sanitizeName (s : String) : String :=
  String.mk ((s.data.filter fun c =>
    c.isAlpha || c.isDigit || c == '_' || c == '-').map Char.toLower)

/-- Helper `createTextSegments`: one segment spanning the whole string, with
style fields taken from the raw `style` object or fixed fallbacks.  A
non-string `name` cannot reach this point (the processor throws earlier), so
it is read as the fallback `"text"`. -/
def createTextSegments (rp : RawProps) : List TextSegment :=
  let nameStr := match rp.name with
    | some (.str s) => s
    | _ => "text"
  let baseSegmentName := sanitizeName (jsOrStr (some nameStr) "text")
  let chars := rp.characters.getD ""
  [{ characters := chars
     uniqueId := baseSegmentName ++ "_span"
     start := 0
     endOffset := chars.length
     fontSize := jsOrQn (rp.style.bind (·.fontSize)) 16
     fontName := match rp.style.bind (·.fontFamily) with
       | some fam =>
         if fam == "" then ⟨"Inter", "Regular"⟩
         else ⟨fam, jsOrStr (rp.style.bind (·.fontStyle)) "Regular"⟩
       | none => ⟨"Inter", "Regular"⟩
     fills := rp.fills.getD []
     fontWeight := jsOrQn (rp.style.bind (·.fontWeight)) 400
     letterSpacing := jsOrQn (rp.style.bind (·.letterSpacing)) 0
     lineHeight := (rp.style.bind (·.lineHeight)).getD ⟨"AUTO", none⟩
     textCase := jsOrStr (rp.style.bind (·.textCase)) "ORIGINAL"
     textDecoration := jsOrStr (rp.style.bind (·.textDecoration)) "NONE"
     openTypeFeatures := ⟨false, false, true, true⟩ }]

/-- Helper `processColorVariables`, per paint: a SOLID paint with a bound
color variable gets `variableColorName = "var-" + id.slice(-6)`. -/
def colorVarPaint (p : Paint) : Paint :=
  if p.type == "SOLID" && p.boundVariableColorId.isSome then
    let vn := "var-" ++ sliceLast (p.boundVariableColorId.getD "") 6
    { p with variableColorName := some vn }
  else p

/-- Step 7.5 per paint: an IMAGE paint gets `resolvedImageUrl` from
`base64Url`, else `imageUrl`, else a placeholder URL sized with the node's
(rounded) width and height defaulted to 100. -/
def imageFillPaint (w h : Option ℚ) (p : Paint) : Paint :=
  if p.type == "IMAGE" then
    let url := if jsTruthyStr p.base64Url then p.base64Url.getD ""
      else if jsTruthyStr p.imageUrl then p.imageUrl.getD ""
      else "https://placehold.co/" ++ intDec (jsRound (jsOrQn w 100)) ++ "x"
        ++ intDec (jsRound (jsOrQn h 100))
    { p with resolvedImageUrl := some url }
  else p

/-- First visible SOLID fill color as a hex string, default black
(shared by both SVG generators). -/
def paintHexColor (fills : List Paint) : String :=
  match fills.find? fun f => f.type == "SOLID" && f.visible != some false with
  | some f =>
    match f.color with
    | some c =>
      "#" ++ padStart2 (intHex (jsRound (c.r * 255)))
        ++ padStart2 (intHex (jsRound (c.g * 255)))
        ++ padStart2 (intHex (jsRound (c.b * 255)))
    | none => "#000000"
  | none => "#000000"

/-- One `<path .../>` element from a geometry entry. -/
def pathElem (fillColor : String) (g : FillGeom) : String :=
  let fillRule := if g.windingRule == "EVENODD" then "evenodd" else "nonzero"
  "<path d=\"" ++ g.path ++ "\" fill=\"" ++ fillColor ++ "\" fill-rule=\""
    ++ fillRule ++ "\"/>"

/-- Decimal rendering of a JavaScript number (integral values print like
integers; the fractional case is rendered as an exact fraction, an
abstraction of JavaScript float printing that no verified claim depends on). -/
def qDec (q : ℚ) : String :=
  if q.den = 1 then intDec q.num else intDec q.num ++ "/" ++ natDec q.den

/-- The SVG envelope shared by both generators. -/
def svgWrap (w h : ℚ) (body : String) : String :=
  "<svg width=\"" ++ qDec w ++ "\" height=\"" ++ qDec h ++ "\" viewBox=\"0 0 "
    ++ qDec w ++ " " ++ qDec h
    ++ "\" fill=\"none\" xmlns=\"http://www.w3.org/2000/svg\">\n  " ++ body
    ++ "\n</svg>"

/-- Helper `generateSVGFromGeometry`: standalone markup from the node's own
geometry, with width/height `|| 24` and the node's own fill color. -/
def generateSVGFromGeometry (fills : List Paint) (fillGeometry : Option (List FillGeom))
    (w h : Option ℚ) : String :=
  match fillGeometry with
  | none => ""
  | some geoms =>
    let width := jsOrQn w 24
    let height := jsOrQn h 24
    let fillColor := paintHexColor fills
    let paths := String.intercalate "\n  " (geoms.map (pathElem fillColor))
    svgWrap width height paths

/-- Helper `generateSVGFromChildren`: combined markup layering each vector
child's paths, each with that child's own fill color. -/
def generateSVGFromChildren (vectorChildren : List RawNode) (w h : Option ℚ) : String :=
  let width := jsOrQn w 24
  let height := jsOrQn h 24
  let allPaths := vectorChildren.flatMap fun v =>
    match v.props.fillGeometry with
    | some geoms => geoms.map (pathElem (paintHexColor (v.props.fills.getD [])))
    | none => []
  if allPaths.isEmpty then ""
  else svgWrap width height (String.intercalate "\n  " allPaths)

/-- Helper `collectVectorGeometry`: the immediate children that are VECTOR
nodes carrying non-empty path geometry. -/
def collectVectorGeometry (r : RawNode) : List RawNode :=
  (r.children.getD []).filter fun c =>
    c.props.type == "VECTOR" && geomNonempty c.props.fillGeometry

/-- Helper `isLikelyIcon`, reading the fields the source reads off the node
under construction: computed `width`/`height`, the raw `type` and the raw
`children`.  Missing or zero dimensions are falsy and fail the guard. -/
def isLikelyIcon (width height : Option ℚ) (ty : String)
    (children : Option (List RawNode)) : Bool :=
  if !truthyQ width || !truthyQ height then false
  else
    let w := width.getD 0
    let h := height.getD 0
    let isSmall := decide (w ≤ 48) && decide (h ≤ 48)
    let isSquareish := decide (|w - h| ≤ max w h * (1 / 2))
    let hasVectorContent := ty == "VECTOR" ||
      (match children with
       | some l => l.any fun c => c.props.type == "VECTOR"
       | none => false)
    isSmall && (isSquareish || hasVectorContent)

/-- Reading `parent?.canBeFlattened` (undefined, hence falsy, at the root). -/
def parentFlat (pctx : Option ParentCtx) : Bool :=
  match pctx with
  | some c => c.canBeFlattened
  | none => false

/-- Reading `parent?.cumulativeRotation || 0`. -/
def parentCum (pctx : Option ParentCtx) : ℚ :=
  match pctx with
  | some c => if c.cumulativeRotation = 0 then 0 else c.cumulativeRotation
  | none => 0

/-- Steps 1.5–9.5 of `processRawNode` for one node, given its assigned unique
name: the spread of the raw fields, array defaulting, position and rotation,
layout defaults, text segments, color-variable and image-fill paint updates,
icon/vector classification and SVG synthesis.  Children, `isRelative`, the
GROUP rewrite and the HUG fix are applied by the recursive driver. -/
def stage1 (r : RawNode) (pctx : Option ParentCtx) (s : Settings) (uniq : String) : AltProps :=
  let rp := r.props
  let fills0 := rp.fills.getD []
  let strokes0 := rp.strokes.getD []
  let effects0 := rp.effects.getD []
  let x := match rp.absoluteBoundingBox with
    | some bb =>
      match pctx.bind (·.bbox) with
      | some pb => some (bb.x - pb.x)
      | none => some 0
    | none => none
  let y := match rp.absoluteBoundingBox with
    | some bb =>
      match pctx.bind (·.bbox) with
      | some pb => some (bb.y - pb.y)
      | none => some 0
    | none => none
  let w := (rp.absoluteBoundingBox.map (·.width))
  let h := (rp.absoluteBoundingBox.map (·.height))
  let rot := match rp.rotation with
    | some q => if q = 0 then (0 : ℚ) else -q * (180 / mathPI)
    | none => 0
  let cum := match rp.rotation with
    | some q => if q = 0 then parentCum pctx else parentCum pctx + (-q * (180 / mathPI))
    | none => parentCum pctx
  let isText := rp.type == "TEXT" && jsTruthyStr rp.characters
  let styleApplied := if isText then rp.style else none
  let fills1 := if s.useColorVariables then fills0.map colorVarPaint else fills0
  let strokes1 := if s.useColorVariables then strokes0.map colorVarPaint else strokes0
  let fills2 := if rp.fills.isSome then fills1.map (imageFillPaint w h) else fills1
  let isIcon := isLikelyIcon w h rp.type r.children
  let hasVectorGeometry := rp.type == "VECTOR" && geomNonempty rp.fillGeometry
  let canBeFlattened :=
    if s.embedVectors then
      if hasVectorGeometry then true
      else if !parentFlat pctx && isIcon then true
      else false
    else false
  let vcs := collectVectorGeometry r
  let svg :=
    if canBeFlattened && s.embedVectors then
      if geomNonempty rp.fillGeometry then
        some (generateSVGFromGeometry fills2 rp.fillGeometry w h)
      else if !vcs.isEmpty then some (generateSVGFromChildren vcs w h)
      else none
    else none
  { id := rp.id
    type := rp.type
    name := rp.name
    visible := rp.visible
    absoluteBoundingBox := rp.absoluteBoundingBox
    layoutPositioning := rp.layoutPositioning
    fillGeometry := rp.fillGeometry
    characters := rp.characters
    uniqueName := uniq
    x := x
    y := y
    width := w
    height := h
    rotation := rot
    cumulativeRotation := cum
    layoutMode := jsOrStr rp.layoutMode "NONE"
    layoutSizingHorizontal := jsOrStr rp.layoutSizingHorizontal "FIXED"
    layoutSizingVertical := jsOrStr rp.layoutSizingVertical "FIXED"
    layoutGrow := jsOrQn rp.layoutGrow 0
    primaryAxisAlignItems := jsOrStr rp.primaryAxisAlignItems "MIN"
    counterAxisAlignItems := jsOrStr rp.counterAxisAlignItems "MIN"
    paddingLeft := jsOrQn rp.paddingLeft 0
    paddingRight := jsOrQn rp.paddingRight 0
    paddingTop := jsOrQn rp.paddingTop 0
    paddingBottom := jsOrQn rp.paddingBottom 0
    itemSpacing := rp.itemSpacing
    primaryAxisSizingMode := rp.primaryAxisSizingMode
    counterAxisSizingMode := rp.counterAxisSizingMode
    fills := fills2
    strokes := strokes1
    effects := effects0
    styledTextSegments := if isText then some (createTextSegments rp) else none
    fontSize := styleApplied.bind (·.fontSize)
    fontFamily := styleApplied.bind (·.fontFamily)
    fontStyle := styleApplied.bind (·.fontStyle)
    fontWeight := styleApplied.bind (·.fontWeight)
    letterSpacing := styleApplied.bind (·.letterSpacing)
    lineHeight := styleApplied.bind (·.lineHeight)
    textCase := styleApplied.bind (·.textCase)
    textDecoration := styleApplied.bind (·.textDecoration)
    canBeFlattened := canBeFlattened
    svg := svg
    isRelative := false }

/-- Whether step 9.5 marks the vector children as consumed: the node is
flattenable, embedding is on, it has no own geometry, and it has vector
children carrying geometry. -/
def shouldMarkKids (r : RawNode) (cbf : Bool) (s : Settings) : Bool :=
  cbf && s.embedVectors && !geomNonempty r.props.fillGeometry
    && !(collectVectorGeometry r).isEmpty

/-- Set `_flattenedIntoParent = true` on one raw node. -/
def markOne (r : RawNode) : RawNode :=
  match r with
  | .mk p cs => .mk { p with flattenedIntoParent := true } cs

/-- Mark a child exactly when `collectVectorGeometry` selected it. -/
def markIfVector (c : RawNode) : RawNode :=
  if c.props.type == "VECTOR" && geomNonempty c.props.fillGeometry then markOne c
  else c

/-- The raw children after step 9.5's in-place marking. -/
def markKids (r : RawNode) (doMark : Bool) : Option (List RawNode) :=
  if doMark then r.children.map (List.map markIfVector) else r.children

theorem rsize_markOne (r : RawNode) : (markOne r).rsize = r.rsize := by
  cases r with
  | mk p cs => cases cs <;> simp [markOne, RawNode.rsize]

theorem rsize_markIfVector (r : RawNode) : (markIfVector r).rsize = r.rsize := by
  unfold markIfVector
  split
  · exact rsize_markOne r
  · rfl

theorem rsizeList_map_markIfVector (l : List RawNode) :
    rsizeList (l.map markIfVector) = rsizeList l := by
  induction l with
  | nil => simp [rsizeList]
  | cons c cs ih =>
    simp only [List.map, rsizeList]
    rw [rsize_markIfVector, ih]

theorem rsizeList_markKids (r : RawNode) (b : Bool) (l : List RawNode)
    (h : markKids r b = some l) : rsizeList l < r.rsize := by
  cases r with
  | mk p cs =>
    cases cs with
    | none =>
      exfalso
      unfold markKids RawNode.children at h
      split at h <;> simp at h
    | some l0 =>
      have he : rsizeList l = rsizeList l0 := by
        unfold markKids RawNode.children at h
        split at h
        · simp at h
          rw [← h]
          exact rsizeList_map_markIfVector l0
        · simp at h
          rw [← h]
      rw [he]
      simp [RawNode.rsize]

/-- Step 12's HUG correction: a HUG sizing axis with no children becomes FIXED. -/
def hugFix (p : AltProps) (hasChildren : Bool) : AltProps :=
  let p1 :=
    if p.layoutSizingHorizontal == "HUG" && !hasChildren then
      { p with layoutSizingHorizontal := "FIXED" }
    else p
  if p1.layoutSizingVertical == "HUG" && !hasChildren then
    { p1 with layoutSizingVertical := "FIXED" }
  else p1

/-- Step 11's redistribution: add the group's converted rotation to a spliced
child's `cumulativeRotation`. -/
def addCumulative (d : ℚ) (a : AltNode) : AltNode :=
  match a with
  | .mk p cs =>
    .mk { p with cumulativeRotation := (if p.cumulativeRotation = 0 then 0 else p.cumulativeRotation) + d } cs

mutual
/-- The recursive `processRawNode`: skips id-less and invisible nodes,
assigns the unique name (throwing on a non-string `name`), computes the
node's own fields (`stage1`), marks consumed vector children, recurses into
the children, sets `isRelative`, inlines GROUP nodes (redistributing their
rotation), and applies the HUG fix.  Returns the produced output, the raw
node as mutated in place, and the updated name counter. -/
def processRawNode (r : RawNode) (pctx : Option ParentCtx) (s : Settings)
    (m : NameMap) : Except Unit (ProcOut × RawNode × NameMap) :=
  if !jsTruthyStr r.props.id then .ok (.nullOut, r, m)
  else if r.props.visible == some false then .ok (.nullOut, r, m)
  else
    match jsBaseName r.props.name with
    | .error e => .error e
    | .ok baseName =>
      let count := m baseName
      let m1 := NameMap.set m baseName (count + 1)
      let p := stage1 r pctx s (mkUnique baseName count)
      let rp2 := { r.props with
        fills := r.props.fills.map fun _ => p.fills
        strokes := r.props.strokes.map fun _ => p.strokes }
      match hc : r.children with
      | some (c0 :: cs) =>
        let kids := if shouldMarkKids r p.canBeFlattened s
          then (c0 :: cs).map markIfVector else c0 :: cs
        let ctx : ParentCtx :=
          ⟨r.props.absoluteBoundingBox, p.cumulativeRotation, p.canBeFlattened⟩
        let res := processChildren kids ctx s m1
        let outs := res.1
        let isRel := p.layoutMode == "NONE"
          || outs.any fun a => a.props.layoutPositioning == some "ABSOLUTE"
        let p2 := { p with isRelative := isRel }
        let r2 := RawNode.mk rp2 (some res.2.1)
        if r.props.type == "GROUP" then
          let outs2 := if p.rotation = 0 then outs else outs.map (addCumulative p.rotation)
          .ok (.multiOut outs2, r2, res.2.2)
        else
          .ok (.singleOut (AltNode.mk (hugFix p2 !outs.isEmpty) (some outs)), r2, res.2.2)
      | kids =>
        let r2 := RawNode.mk rp2 kids
        if r.props.type == "GROUP" then .ok (.multiOut [], r2, m1)
        else
          .ok (.singleOut (AltNode.mk (hugFix p false) (kids.map fun _ => ([] : List AltNode))), r2, m1)
termination_by r.rsize
decreasing_by
  simp_wf
  cases r with
  | mk rp rkids =>
    simp only [RawNode.children] at hc
    subst hc
    simp only [RawNode.rsize]
    split
    · have h1 := rsizeList_map_markIfVector (c0 :: cs)
      simp only [List.map] at h1
      omega
    · omega

/-- The children loop of step 10: skip invisible and consumed children, catch
a child's exception (dropping only that child), and splice list results. -/
def processChildren (cs : List RawNode) (ctx : ParentCtx) (s : Settings)
    (m : NameMap) : List AltNode × List RawNode × NameMap :=
  match cs with
  | [] => ([], [], m)
  | c :: rest =>
    if c.props.visible != some false && !c.props.flattenedIntoParent then
      match processRawNode c (some ctx) s m with
      | .ok (out, c2, m2) =>
        let res := processChildren rest ctx s m2
        (out.toList ++ res.1, c2 :: res.2.1, res.2.2)
      | .error _ =>
        let res := processChildren rest ctx s m
        (res.1, c :: res.2.1, res.2.2)
    else
      let res := processChildren rest ctx s m
      (res.1, c :: res.2.1, res.2.2)
termination_by rsizeList cs
decreasing_by
  all_goals simp_wf
  all_goals simp [rsizeList]
  all_goals omega
end

/-- The loop of `processRawFigmaNodes`: process each root with a null parent,
catch per-root failures, splice list results, thread the name counter. -/
def processRootsLoop (roots : List RawNode) (s : Settings) (m : NameMap) :
    List AltNode × List RawNode × NameMap :=
  match roots with
  | [] => ([], [], m)
  | r :: rest =>
    match processRawNode r none s m with
    | .ok (out, r2, m2) =>
      let res := processRootsLoop rest s m2
      (out.toList ++ res.1, r2 :: res.2.1, res.2.2)
    | .error _ =>
      let res := processRootsLoop rest s m
      (res.1, r :: res.2.1, res.2.2)

/-- Entry point `processRawFigmaNodes`: process the extracted roots with a
fresh name counter.  The second component is the raw input as mutated in
place by the processing pass. -/
def processRawFigmaNodes (roots : List RawNode) (s : Settings) :
    List AltNode × List RawNode :=
  let res := processRootsLoop roots s NameMap.empty
  (res.1, res.2.1)

mutual
/-- Structural size of a produced node. -/
def AltNode.asize : AltNode → ℕ
  | .mk _ none => 1
  | .mk _ (some l) => 1 + asizeList l
/-- Structural size of a list of produced nodes. -/
def asizeList : List AltNode → ℕ
  | [] => 0
  | a :: l => 1 + a.asize + asizeList l
end

mutual
/-- All nodes of a produced forest, in preorder. -/
def altForest : List AltNode → List AltNode
  | [] => []
  | a :: l => AltNode.subnodes a ++ altForest l
/-- A produced node together with all of its descendants, in preorder. -/
def AltNode.subnodes : AltNode → List AltNode
  | .mk p none => [.mk p none]
  | .mk p (some l) => .mk p (some l) :: altForest l
end

mutual
/-- All ids present in a raw subtree. -/
def rawIds : RawNode → List String
  | .mk p none => p.id.toList
  | .mk p (some l) => p.id.toList ++ rawIdsList l
/-- All ids present in a raw forest. -/
def rawIdsList : List RawNode → List String
  | [] => []
  | c :: l => rawIds c ++ rawIdsList l
end

mutual
/-- The ids of a raw subtree reachable without entering an invisible node. -/
def visIds : RawNode → List String
  | .mk p none => if p.visible == some false then [] else p.id.toList
  | .mk p (some l) =>
    if p.visible == some false then [] else p.id.toList ++ visIdsList l
/-- The visibly reachable ids of a raw forest. -/
def visIdsList : List RawNode → List String
  | [] => []
  | c :: l => visIds c ++ visIdsList l
end

/-- The ids carried by the nodes of a produced forest. -/
def outIds (l : List AltNode) : List String :=
  (altForest l).filterMap (·.props.id)

/-- Reset the two paint fields the processor writes in place. -/
def erasePaint (p : Paint) : Paint :=
  { p with resolvedImageUrl := none, variableColorName := none }

/-- Reset, on one node's props, every field the processor writes in place. -/
def eraseProps (p : RawProps) : RawProps :=
  { p with
    fills := p.fills.map (·.map erasePaint)
    strokes := p.strokes.map (·.map erasePaint)
    flattenedIntoParent := false }

mutual
/-- Reset, over a whole raw tree, every field the processor writes in place. -/
def eraseNode : RawNode → RawNode
  | .mk p none => .mk (eraseProps p) none
  | .mk p (some l) => .mk (eraseProps p) (some (eraseList l))
/-- Pointwise `eraseNode` over a raw forest. -/
def eraseList : List RawNode → List RawNode
  | [] => []
  | c :: cs => eraseNode c :: eraseList cs
end

/-- The base name a produced node's preserved raw `name` determines.  A
non-string name never survives processing; it is mapped to the fallback. -/
def abaseOfName (n : Option RawName) : String :=
  match n with
  | none => "unnamed"
  | some (.str s) => if jsTrim s == "" then "unnamed" else jsTrim s
  | some .nonString => "unnamed"

/-- The base name of a produced node. -/
def abase (a : AltNode) : String := abaseOfName a.props.name

/-- A raw props record with every optional field absent (used to build the
concrete nodes of the witnesses below). -/
def rpBase : RawProps :=
  { id := none, type := "RECTANGLE", name := none, visible := none
    absoluteBoundingBox := none, rotation := none, layoutMode := none
    layoutSizingHorizontal := none, layoutSizingVertical := none
    layoutGrow := none, primaryAxisAlignItems := none
    counterAxisAlignItems := none, paddingLeft := none, paddingRight := none
    paddingTop := none, paddingBottom := none, itemSpacing := none
    primaryAxisSizingMode := none, counterAxisSizingMode := none
    layoutPositioning := none, fills := none, strokes := none, effects := none
    fillGeometry := none, characters := none, style := none
    flattenedIntoParent := false }

/-- Default settings used by several witnesses. -/
def sBase : Settings := ⟨false, false⟩

/-- Projection used to state evaluation facts: id and unique name of each
produced node of a processing result. -/
def outNames (res : Except Unit (ProcOut × RawNode × NameMap)) :
    List (Option String × String) :=
  match res with
  | .ok (out, _, _) => out.toList.map fun a => (a.props.id, a.uname)
  | .error _ => []


theorem mathPI_ne_zero : mathPI ≠ 0 := by norm_num [mathPI]

theorem mathPI_conv : -mathPI * (180 / mathPI) = -180 := by
  rw [neg_mul, mul_div_assoc']
  rw [mul_comm, mul_div_assoc, div_self mathPI_ne_zero]
  norm_num

/-- Projection used to state evaluation facts: the `cumulativeRotation` of
each produced node of a processing result. -/
def outCums (res : Except Unit (ProcOut × RawNode × NameMap)) : List ℚ :=
  match res with
  | .ok (out, _, _) => out.toList.map fun a => a.props.cumulativeRotation
  | .error _ => []

/-- Child of the C1 failing input: no own rotation. -/
def c1child : RawNode := .mk { rpBase with id := some "c", name := some (.str "child") } none

/-- C1 failing input: a GROUP with raw rotation `π` radians and one child. -/
def c1groupProps : RawProps :=
  { rpBase with
    id := some "g"
    type := "GROUP"
    name := some (.str "grp")
    rotation := some mathPI }

def c1group : RawNode := .mk c1groupProps (some [c1child])


/-- The updated raw props after the in-place fill and stroke mutations. -/
def mutProps (p : RawProps) (P : AltProps) : RawProps :=
  { p with
    fills := p.fills.map fun _ => P.fills
    strokes := p.strokes.map fun _ => P.strokes }

/-- The marked child list of a node with a non-empty `children` array. -/
def markedKids (p : RawProps) (l : List RawNode) (P : AltProps) (s : Settings) :
    List RawNode :=
  if shouldMarkKids (.mk p (some l)) P.canBeFlattened s then l.map markIfVector else l

theorem processRawNode_noId (p : RawProps) (k : Option (List RawNode))
    (pctx : Option ParentCtx) (s : Settings) (m : NameMap)
    (hid : jsTruthyStr p.id = false) :
    processRawNode (.mk p k) pctx s m = .ok (.nullOut, .mk p k, m) := by
  rw [processRawNode.eq_def]
  simp only [RawNode.props, hid, Bool.not_false, if_true]

theorem processRawNode_invisible (p : RawProps) (k : Option (List RawNode))
    (pctx : Option ParentCtx) (s : Settings) (m : NameMap)
    (hid : jsTruthyStr p.id = true) (hvis : (p.visible == some false) = true) :
    processRawNode (.mk p k) pctx s m = .ok (.nullOut, .mk p k, m) := by
  rw [processRawNode.eq_def]
  simp only [RawNode.props, hid, hvis, Bool.not_true, Bool.false_eq_true, if_false, if_true]

theorem processRawNode_badName (p : RawProps) (k : Option (List RawNode))
    (pctx : Option ParentCtx) (s : Settings) (m : NameMap)
    (hid : jsTruthyStr p.id = true) (hvis : (p.visible == some false) = false)
    (hname : jsBaseName p.name = .error ()) :
    processRawNode (.mk p k) pctx s m = .error () := by
  rw [processRawNode.eq_def]
  simp only [RawNode.props, hid, hvis, Bool.not_true, Bool.false_eq_true, if_false, hname]

theorem processRawNode_noKids (p : RawProps)
    (pctx : Option ParentCtx) (s : Settings) (m : NameMap) (b : String)
    (hid : jsTruthyStr p.id = true) (hvis : (p.visible == some false) = false)
    (hname : jsBaseName p.name = .ok b) :
    processRawNode (.mk p none) pctx s m =
      .ok ((if p.type == "GROUP" then .multiOut [] else
          .singleOut (.mk (hugFix (stage1 (.mk p none) pctx s (mkUnique b (m b))) false) none)),
        .mk (mutProps p (stage1 (.mk p none) pctx s (mkUnique b (m b)))) none,
        NameMap.set m b (m b + 1)) := by
  rw [processRawNode.eq_def]
  simp only [RawNode.props, RawNode.children, hid, hvis, Bool.not_true, Bool.false_eq_true,
    if_false, hname, mutProps]
  split <;> rfl

theorem processRawNode_emptyKids (p : RawProps)
    (pctx : Option ParentCtx) (s : Settings) (m : NameMap) (b : String)
    (hid : jsTruthyStr p.id = true) (hvis : (p.visible == some false) = false)
    (hname : jsBaseName p.name = .ok b) :
    processRawNode (.mk p (some [])) pctx s m =
      .ok ((if p.type == "GROUP" then .multiOut [] else
          .singleOut (.mk (hugFix (stage1 (.mk p (some [])) pctx s (mkUnique b (m b))) false) (some []))),
        .mk (mutProps p (stage1 (.mk p (some [])) pctx s (mkUnique b (m b)))) (some []),
        NameMap.set m b (m b + 1)) := by
  rw [processRawNode.eq_def]
  simp only [RawNode.props, RawNode.children, hid, hvis, Bool.not_true, Bool.false_eq_true,
    if_false, hname, mutProps]
  split <;> rfl

theorem processRawNode_kids (p : RawProps) (c0 : RawNode) (cs : List RawNode)
    (pctx : Option ParentCtx) (s : Settings) (m : NameMap) (b : String)
    (hid : jsTruthyStr p.id = true) (hvis : (p.visible == some false) = false)
    (hname : jsBaseName p.name = .ok b) :
    processRawNode (.mk p (some (c0 :: cs))) pctx s m =
      (if p.type == "GROUP" then
         .ok (.multiOut (if (stage1 (.mk p (some (c0 :: cs))) pctx s (mkUnique b (m b))).rotation = 0 then (processChildren (markedKids p (c0 :: cs) (stage1 (.mk p (some (c0 :: cs))) pctx s (mkUnique b (m b))) s)
         ⟨p.absoluteBoundingBox, (stage1 (.mk p (some (c0 :: cs))) pctx s (mkUnique b (m b))).cumulativeRotation, (stage1 (.mk p (some (c0 :: cs))) pctx s (mkUnique b (m b))).canBeFlattened⟩ s
         (NameMap.set m b (m b + 1))).1
             else (processChildren (markedKids p (c0 :: cs) (stage1 (.mk p (some (c0 :: cs))) pctx s (mkUnique b (m b))) s)
         ⟨p.absoluteBoundingBox, (stage1 (.mk p (some (c0 :: cs))) pctx s (mkUnique b (m b))).cumulativeRotation, (stage1 (.mk p (some (c0 :: cs))) pctx s (mkUnique b (m b))).canBeFlattened⟩ s
         (NameMap.set m b (m b + 1))).1.map (addCumulative (stage1 (.mk p (some (c0 :: cs))) pctx s (mkUnique b (m b))).rotation)),
           .mk (mutProps p (stage1 (.mk p (some (c0 :: cs))) pctx s (mkUnique b (m b)))) (some (processChildren (markedKids p (c0 :: cs) (stage1 (.mk p (some (c0 :: cs))) pctx s (mkUnique b (m b))) s)
         ⟨p.absoluteBoundingBox, (stage1 (.mk p (some (c0 :: cs))) pctx s (mkUnique b (m b))).cumulativeRotation, (stage1 (.mk p (some (c0 :: cs))) pctx s (mkUnique b (m b))).canBeFlattened⟩ s
         (NameMap.set m b (m b + 1))).2.1), (processChildren (markedKids p (c0 :: cs) (stage1 (.mk p (some (c0 :: cs))) pctx s (mkUnique b (m b))) s)
         ⟨p.absoluteBoundingBox, (stage1 (.mk p (some (c0 :: cs))) pctx s (mkUnique b (m b))).cumulativeRotation, (stage1 (.mk p (some (c0 :: cs))) pctx s (mkUnique b (m b))).canBeFlattened⟩ s
         (NameMap.set m b (m b + 1))).2.2)
       else
         .ok (.singleOut (.mk
             (hugFix { (stage1 (.mk p (some (c0 :: cs))) pctx s (mkUnique b (m b))) with isRelative := ((stage1 (.mk p (some (c0 :: cs))) pctx s (mkUnique b (m b))).layoutMode == "NONE"
                 || (processChildren (markedKids p (c0 :: cs) (stage1 (.mk p (some (c0 :: cs))) pctx s (mkUnique b (m b))) s)
         ⟨p.absoluteBoundingBox, (stage1 (.mk p (some (c0 :: cs))) pctx s (mkUnique b (m b))).cumulativeRotation, (stage1 (.mk p (some (c0 :: cs))) pctx s (mkUnique b (m b))).canBeFlattened⟩ s
         (NameMap.set m b (m b + 1))).1.any fun a => a.props.layoutPositioning == some "ABSOLUTE") } !(processChildren (markedKids p (c0 :: cs) (stage1 (.mk p (some (c0 :: cs))) pctx s (mkUnique b (m b))) s)
         ⟨p.absoluteBoundingBox, (stage1 (.mk p (some (c0 :: cs))) pctx s (mkUnique b (m b))).cumulativeRotation, (stage1 (.mk p (some (c0 :: cs))) pctx s (mkUnique b (m b))).canBeFlattened⟩ s
         (NameMap.set m b (m b + 1))).1.isEmpty)
             (some (processChildren (markedKids p (c0 :: cs) (stage1 (.mk p (some (c0 :: cs))) pctx s (mkUnique b (m b))) s)
         ⟨p.absoluteBoundingBox, (stage1 (.mk p (some (c0 :: cs))) pctx s (mkUnique b (m b))).cumulativeRotation, (stage1 (.mk p (some (c0 :: cs))) pctx s (mkUnique b (m b))).canBeFlattened⟩ s
         (NameMap.set m b (m b + 1))).1)),
           .mk (mutProps p (stage1 (.mk p (some (c0 :: cs))) pctx s (mkUnique b (m b)))) (some (processChildren (markedKids p (c0 :: cs) (stage1 (.mk p (some (c0 :: cs))) pctx s (mkUnique b (m b))) s)
         ⟨p.absoluteBoundingBox, (stage1 (.mk p (some (c0 :: cs))) pctx s (mkUnique b (m b))).cumulativeRotation, (stage1 (.mk p (some (c0 :: cs))) pctx s (mkUnique b (m b))).canBeFlattened⟩ s
         (NameMap.set m b (m b + 1))).2.1), (processChildren (markedKids p (c0 :: cs) (stage1 (.mk p (some (c0 :: cs))) pctx s (mkUnique b (m b))) s)
         ⟨p.absoluteBoundingBox, (stage1 (.mk p (some (c0 :: cs))) pctx s (mkUnique b (m b))).cumulativeRotation, (stage1 (.mk p (some (c0 :: cs))) pctx s (mkUnique b (m b))).canBeFlattened⟩ s
         (NameMap.set m b (m b + 1))).2.2)) := by
  rw [processRawNode.eq_def]
  simp only [RawNode.props, RawNode.children, hid, hvis, Bool.not_true, Bool.false_eq_true,
    if_false, hname]
  unfold mutProps markedKids
  rfl

theorem processChildren_nil (ctx : ParentCtx) (s : Settings) (m : NameMap) :
    processChildren [] ctx s m = ([], [], m) := by
  rw [processChildren.eq_def]

theorem processChildren_skip (c : RawNode) (rest : List RawNode) (ctx : ParentCtx)
    (s : Settings) (m : NameMap)
    (h : (c.props.visible != some false && !c.props.flattenedIntoParent) = false) :
    processChildren (c :: rest) ctx s m =
      ((processChildren rest ctx s m).1, c :: (processChildren rest ctx s m).2.1,
        (processChildren rest ctx s m).2.2) := by
  rw [processChildren.eq_def]
  simp only [h, Bool.false_eq_true, if_false]

theorem processChildren_ok (c : RawNode) (rest : List RawNode) (ctx : ParentCtx)
    (s : Settings) (m : NameMap) (out : ProcOut) (c2 : RawNode) (m2 : NameMap)
    (helig : (c.props.visible != some false && !c.props.flattenedIntoParent) = true)
    (h : processRawNode c (some ctx) s m = .ok (out, c2, m2)) :
    processChildren (c :: rest) ctx s m =
      (out.toList ++ (processChildren rest ctx s m2).1,
        c2 :: (processChildren rest ctx s m2).2.1,
        (processChildren rest ctx s m2).2.2) := by
  rw [processChildren.eq_def]
  simp only [helig, if_true, h]

theorem processChildren_err (c : RawNode) (rest : List RawNode) (ctx : ParentCtx)
    (s : Settings) (m : NameMap)
    (helig : (c.props.visible != some false && !c.props.flattenedIntoParent) = true)
    (h : processRawNode c (some ctx) s m = .error ()) :
    processChildren (c :: rest) ctx s m =
      ((processChildren rest ctx s m).1, c :: (processChildren rest ctx s m).2.1,
        (processChildren rest ctx s m).2.2) := by
  rw [processChildren.eq_def]
  simp only [helig, if_true, h]

theorem processRootsLoop_nil (s : Settings) (m : NameMap) :
    processRootsLoop [] s m = ([], [], m) := rfl

theorem processRootsLoop_cons (r : RawNode) (rest : List RawNode) (s : Settings)
    (m : NameMap) :
    processRootsLoop (r :: rest) s m =
      (match processRawNode r none s m with
       | .ok (out, r2, m2) =>
         (out.toList ++ (processRootsLoop rest s m2).1,
           r2 :: (processRootsLoop rest s m2).2.1, (processRootsLoop rest s m2).2.2)
       | .error _ =>
         ((processRootsLoop rest s m).1, r :: (processRootsLoop rest s m).2.1,
           (processRootsLoop rest s m).2.2)) := rfl

theorem processRootsLoop_ok (r : RawNode) (rest : List RawNode) (s : Settings)
    (m : NameMap) (out : ProcOut) (r2 : RawNode) (m2 : NameMap)
    (h : processRawNode r none s m = .ok (out, r2, m2)) :
    processRootsLoop (r :: rest) s m =
      (out.toList ++ (processRootsLoop rest s m2).1,
        r2 :: (processRootsLoop rest s m2).2.1, (processRootsLoop rest s m2).2.2) := by
  rw [processRootsLoop_cons, h]

theorem processRootsLoop_err (r : RawNode) (rest : List RawNode) (s : Settings)
    (m : NameMap) (h : processRawNode r none s m = .error ()) :
    processRootsLoop (r :: rest) s m =
      ((processRootsLoop rest s m).1, r :: (processRootsLoop rest s m).2.1,
        (processRootsLoop rest s m).2.2) := by
  rw [processRootsLoop_cons, h]

theorem hugFix_eq (p : AltProps) (b : Bool) :
    hugFix p b = { p with
      layoutSizingHorizontal :=
        if p.layoutSizingHorizontal == "HUG" && !b then "FIXED" else p.layoutSizingHorizontal
      layoutSizingVertical :=
        if p.layoutSizingVertical == "HUG" && !b then "FIXED" else p.layoutSizingVertical } := by
  unfold hugFix
  split <;> split <;> simp_all

/-- Inversion: everything a single (non-spliced) output of `processRawNode`
can be. -/
theorem processRawNode_single_inv (p : RawProps) (k : Option (List RawNode))
    (pctx : Option ParentCtx) (s : Settings) (m : NameMap) (a : AltNode)
    (r' : RawNode) (m' : NameMap)
    (h : processRawNode (.mk p k) pctx s m = .ok (.singleOut a, r', m')) :
    ∃ b, jsBaseName p.name = .ok b ∧ jsTruthyStr p.id = true
      ∧ (p.visible == some false) = false ∧ (p.type == "GROUP") = false
      ∧ ((k = none ∧ a = .mk (hugFix (stage1 (.mk p none) pctx s (mkUnique b (m b))) false) none)
        ∨ (k = some [] ∧ a = .mk (hugFix (stage1 (.mk p (some [])) pctx s (mkUnique b (m b))) false) (some []))
        ∨ (∃ c0 cs, k = some (c0 :: cs) ∧
            a = AltNode.mk (hugFix { (stage1 (.mk p (some (c0 :: cs))) pctx s (mkUnique b (m b))) with isRelative := ((stage1 (.mk p (some (c0 :: cs))) pctx s (mkUnique b (m b))).layoutMode == "NONE"
                     || (processChildren (markedKids p (c0 :: cs) (stage1 (.mk p (some (c0 :: cs))) pctx s (mkUnique b (m b))) s)
         ⟨p.absoluteBoundingBox, (stage1 (.mk p (some (c0 :: cs))) pctx s (mkUnique b (m b))).cumulativeRotation, (stage1 (.mk p (some (c0 :: cs))) pctx s (mkUnique b (m b))).canBeFlattened⟩ s
         (NameMap.set m b (m b + 1))).1.any fun x => x.props.layoutPositioning == some "ABSOLUTE") }
                   !(processChildren (markedKids p (c0 :: cs) (stage1 (.mk p (some (c0 :: cs))) pctx s (mkUnique b (m b))) s)
         ⟨p.absoluteBoundingBox, (stage1 (.mk p (some (c0 :: cs))) pctx s (mkUnique b (m b))).cumulativeRotation, (stage1 (.mk p (some (c0 :: cs))) pctx s (mkUnique b (m b))).canBeFlattened⟩ s
         (NameMap.set m b (m b + 1))).1.isEmpty) (some (processChildren (markedKids p (c0 :: cs) (stage1 (.mk p (some (c0 :: cs))) pctx s (mkUnique b (m b))) s)
         ⟨p.absoluteBoundingBox, (stage1 (.mk p (some (c0 :: cs))) pctx s (mkUnique b (m b))).cumulativeRotation, (stage1 (.mk p (some (c0 :: cs))) pctx s (mkUnique b (m b))).canBeFlattened⟩ s
         (NameMap.set m b (m b + 1))).1))) := by
  cases hid : jsTruthyStr p.id with
  | false =>
    rw [processRawNode_noId p k pctx s m hid] at h
    simp at h
  | true =>
  cases hvis : (p.visible == some false) with
  | true =>
    rw [processRawNode_invisible p k pctx s m hid hvis] at h
    simp at h
  | false =>
  cases hbn : jsBaseName p.name with
  | error e =>
    cases e
    rw [processRawNode_badName p k pctx s m hid hvis hbn] at h
    simp at h
  | ok b =>
  cases k with
  | none =>
    rw [processRawNode_noKids p pctx s m b hid hvis hbn] at h
    cases hg : (p.type == "GROUP") with
    | true => simp only [hg, if_true] at h; simp at h
    | false =>
      simp only [hg, Bool.false_eq_true, if_false, Except.ok.injEq, Prod.mk.injEq,
        ProcOut.singleOut.injEq] at h
      exact ⟨b, rfl, rfl, rfl, rfl, Or.inl ⟨rfl, h.1.symm⟩⟩
  | some l =>
    cases l with
    | nil =>
      rw [processRawNode_emptyKids p pctx s m b hid hvis hbn] at h
      cases hg : (p.type == "GROUP") with
      | true => simp only [hg, if_true] at h; simp at h
      | false =>
        simp only [hg, Bool.false_eq_true, if_false, Except.ok.injEq, Prod.mk.injEq,
          ProcOut.singleOut.injEq] at h
        exact ⟨b, rfl, rfl, rfl, rfl, Or.inr (Or.inl ⟨rfl, h.1.symm⟩)⟩
    | cons c0 cs =>
      rw [processRawNode_kids p c0 cs pctx s m b hid hvis hbn] at h
      cases hg : (p.type == "GROUP") with
      | true => simp only [hg, if_true] at h; simp at h
      | false =>
        simp only [hg, Bool.false_eq_true, if_false, Except.ok.injEq, Prod.mk.injEq,
          ProcOut.singleOut.injEq] at h
        exact ⟨b, rfl, rfl, rfl, rfl, Or.inr (Or.inr ⟨c0, cs, rfl, h.1.symm⟩)⟩

theorem stage1_uniqueName (r : RawNode) (pctx : Option ParentCtx) (s : Settings)
    (u : String) : (stage1 r pctx s u).uniqueName = u := rfl

theorem stage1_name (r : RawNode) (pctx : Option ParentCtx) (s : Settings)
    (u : String) : (stage1 r pctx s u).name = r.props.name := rfl

theorem stage1_id (r : RawNode) (pctx : Option ParentCtx) (s : Settings)
    (u : String) : (stage1 r pctx s u).id = r.props.id := rfl

theorem stage1_width (r : RawNode) (pctx : Option ParentCtx) (s : Settings)
    (u : String) :
    (stage1 r pctx s u).width = r.props.absoluteBoundingBox.map (·.width) := rfl

theorem stage1_height (r : RawNode) (pctx : Option ParentCtx) (s : Settings)
    (u : String) :
    (stage1 r pctx s u).height = r.props.absoluteBoundingBox.map (·.height) := rfl

theorem stage1_x (r : RawNode) (pctx : Option ParentCtx) (s : Settings)
    (u : String) :
    (stage1 r pctx s u).x =
      (match r.props.absoluteBoundingBox with
       | some bb =>
         match pctx.bind (·.bbox) with
         | some pb => some (bb.x - pb.x)
         | none => some 0
       | none => none) := rfl

theorem stage1_y (r : RawNode) (pctx : Option ParentCtx) (s : Settings)
    (u : String) :
    (stage1 r pctx s u).y =
      (match r.props.absoluteBoundingBox with
       | some bb =>
         match pctx.bind (·.bbox) with
         | some pb => some (bb.y - pb.y)
         | none => some 0
       | none => none) := rfl

theorem stage1_rotation (r : RawNode) (pctx : Option ParentCtx) (s : Settings)
    (u : String) :
    (stage1 r pctx s u).rotation =
      (match r.props.rotation with
       | some q => if q = 0 then (0 : ℚ) else -q * (180 / mathPI)
       | none => 0) := rfl

theorem stage1_cumulativeRotation (r : RawNode) (pctx : Option ParentCtx)
    (s : Settings) (u : String) :
    (stage1 r pctx s u).cumulativeRotation =
      (match r.props.rotation with
       | some q => if q = 0 then parentCum pctx else parentCum pctx + (-q * (180 / mathPI))
       | none => parentCum pctx) := rfl

theorem stage1_layoutMode (r : RawNode) (pctx : Option ParentCtx) (s : Settings)
    (u : String) : (stage1 r pctx s u).layoutMode = jsOrStr r.props.layoutMode "NONE" := rfl

theorem stage1_layoutSizingHorizontal (r : RawNode) (pctx : Option ParentCtx)
    (s : Settings) (u : String) :
    (stage1 r pctx s u).layoutSizingHorizontal =
      jsOrStr r.props.layoutSizingHorizontal "FIXED" := rfl

theorem stage1_layoutSizingVertical (r : RawNode) (pctx : Option ParentCtx)
    (s : Settings) (u : String) :
    (stage1 r pctx s u).layoutSizingVertical =
      jsOrStr r.props.layoutSizingVertical "FIXED" := rfl

theorem stage1_layoutGrow (r : RawNode) (pctx : Option ParentCtx) (s : Settings)
    (u : String) : (stage1 r pctx s u).layoutGrow = jsOrQn r.props.layoutGrow 0 := rfl

theorem stage1_primaryAxisAlignItems (r : RawNode) (pctx : Option ParentCtx)
    (s : Settings) (u : String) :
    (stage1 r pctx s u).primaryAxisAlignItems =
      jsOrStr r.props.primaryAxisAlignItems "MIN" := rfl

theorem stage1_counterAxisAlignItems (r : RawNode) (pctx : Option ParentCtx)
    (s : Settings) (u : String) :
    (stage1 r pctx s u).counterAxisAlignItems =
      jsOrStr r.props.counterAxisAlignItems "MIN" := rfl

theorem stage1_paddingLeft (r : RawNode) (pctx : Option ParentCtx) (s : Settings)
    (u : String) : (stage1 r pctx s u).paddingLeft = jsOrQn r.props.paddingLeft 0 := rfl

theorem stage1_paddingRight (r : RawNode) (pctx : Option ParentCtx) (s : Settings)
    (u : String) : (stage1 r pctx s u).paddingRight = jsOrQn r.props.paddingRight 0 := rfl

theorem stage1_paddingTop (r : RawNode) (pctx : Option ParentCtx) (s : Settings)
    (u : String) : (stage1 r pctx s u).paddingTop = jsOrQn r.props.paddingTop 0 := rfl

theorem stage1_paddingBottom (r : RawNode) (pctx : Option ParentCtx) (s : Settings)
    (u : String) : (stage1 r pctx s u).paddingBottom = jsOrQn r.props.paddingBottom 0 := rfl

theorem stage1_itemSpacing (r : RawNode) (pctx : Option ParentCtx) (s : Settings)
    (u : String) : (stage1 r pctx s u).itemSpacing = r.props.itemSpacing := rfl

theorem stage1_primaryAxisSizingMode (r : RawNode) (pctx : Option ParentCtx)
    (s : Settings) (u : String) :
    (stage1 r pctx s u).primaryAxisSizingMode = r.props.primaryAxisSizingMode := rfl

theorem stage1_counterAxisSizingMode (r : RawNode) (pctx : Option ParentCtx)
    (s : Settings) (u : String) :
    (stage1 r pctx s u).counterAxisSizingMode = r.props.counterAxisSizingMode := rfl

theorem stage1_layoutPositioning (r : RawNode) (pctx : Option ParentCtx)
    (s : Settings) (u : String) :
    (stage1 r pctx s u).layoutPositioning = r.props.layoutPositioning := rfl

theorem stage1_isRelative (r : RawNode) (pctx : Option ParentCtx) (s : Settings)
    (u : String) : (stage1 r pctx s u).isRelative = false := rfl

theorem stage1_canBeFlattened (r : RawNode) (pctx : Option ParentCtx) (s : Settings)
    (u : String) :
    (stage1 r pctx s u).canBeFlattened =
      (if s.embedVectors then
        if r.props.type == "VECTOR" && geomNonempty r.props.fillGeometry then true
        else if !parentFlat pctx
            && isLikelyIcon (r.props.absoluteBoundingBox.map (·.width))
              (r.props.absoluteBoundingBox.map (·.height)) r.props.type r.children then true
        else false
      else false) := rfl

theorem hugFix_unchanged (p : AltProps) (b : Bool) :
    (hugFix p b).uniqueName = p.uniqueName ∧ (hugFix p b).name = p.name
      ∧ (hugFix p b).id = p.id ∧ (hugFix p b).x = p.x ∧ (hugFix p b).y = p.y
      ∧ (hugFix p b).width = p.width ∧ (hugFix p b).height = p.height
      ∧ (hugFix p b).rotation = p.rotation
      ∧ (hugFix p b).cumulativeRotation = p.cumulativeRotation
      ∧ (hugFix p b).layoutMode = p.layoutMode
      ∧ (hugFix p b).layoutGrow = p.layoutGrow
      ∧ (hugFix p b).primaryAxisAlignItems = p.primaryAxisAlignItems
      ∧ (hugFix p b).counterAxisAlignItems = p.counterAxisAlignItems
      ∧ (hugFix p b).paddingLeft = p.paddingLeft
      ∧ (hugFix p b).paddingRight = p.paddingRight
      ∧ (hugFix p b).paddingTop = p.paddingTop
      ∧ (hugFix p b).paddingBottom = p.paddingBottom
      ∧ (hugFix p b).itemSpacing = p.itemSpacing
      ∧ (hugFix p b).primaryAxisSizingMode = p.primaryAxisSizingMode
      ∧ (hugFix p b).counterAxisSizingMode = p.counterAxisSizingMode
      ∧ (hugFix p b).canBeFlattened = p.canBeFlattened
      ∧ (hugFix p b).isRelative = p.isRelative
      ∧ (hugFix p b).layoutPositioning = p.layoutPositioning := by
  rw [hugFix_eq]
  refine ⟨rfl, rfl, rfl, rfl, rfl, rfl, rfl, rfl, rfl, rfl, rfl, rfl, rfl, rfl,
    rfl, rfl, rfl, rfl, rfl, rfl, rfl, rfl, rfl⟩

theorem hugFix_canBeFlattened (p : AltProps) (b : Bool) :
    (hugFix p b).canBeFlattened = p.canBeFlattened := by rw [hugFix_eq]

theorem hugFix_itemSpacing (p : AltProps) (b : Bool) :
    (hugFix p b).itemSpacing = p.itemSpacing := by rw [hugFix_eq]

theorem hugFix_isRelative (p : AltProps) (b : Bool) :
    (hugFix p b).isRelative = p.isRelative := by rw [hugFix_eq]

theorem isLikelyIcon_49 (ty : String) (cs : Option (List RawNode)) :
    isLikelyIcon (some 49) (some 49) ty cs = false := by
  simp only [isLikelyIcon, truthyQ]
  norm_num

/-- The vector child of the C3 counterexample input. -/
def c3vec : RawNode := .mk { rpBase with id := some "v", type := "VECTOR" } none

/-- The C3 counterexample input: a 49-by-49 FRAME containing a VECTOR child. -/
def c3node : RawNode :=
  .mk { rpBase with
    id := some "i49"
    type := "FRAME"
    absoluteBoundingBox := some ⟨0, 0, 49, 49⟩ } (some [c3vec])

/-- Settings with vector embedding enabled. -/
def sVec : Settings := ⟨true, false⟩

/-- Projection: the `canBeFlattened` flag of each produced node. -/
def outFlats (res : Except Unit (ProcOut × RawNode × NameMap)) : List Bool :=
  match res with
  | .ok (out, _, _) => out.toList.map fun a => a.props.canBeFlattened
  | .error _ => []

/-- C3 counterexample: a 49-by-49 node containing a VECTOR child is NOT
classified as an icon by `isLikelyIcon`, and processing it with vector
embedding enabled still leaves it unflattenable — the VECTOR-descendant
disjunct does not override the 48-unit size limit, contrary to the claim. -/
theorem c3_counterexample :
    isLikelyIcon (some 49) (some 49) "FRAME" (some [c3vec]) = false
      ∧ outFlats (processRawNode c3node none sVec NameMap.empty) = [false] := by
  constructor
  · exact isLikelyIcon_49 _ _
  · simp only [c3node]
    rw [processRawNode_kids _ _ _ _ _ _ "unnamed" (by rfl) (by rfl) (by rfl)]
    simp [outFlats, ProcOut.toList, hugFix_canBeFlattened, stage1_canBeFlattened,
      AltNode.props, rpBase, sVec, RawNode.props, RawNode.children, geomNonempty,
      parentFlat, isLikelyIcon_49]

/-- C3 amended: `isLikelyIcon` accepts any node with width = height = 48 and
rejects any node with width = height = 49, regardless of its type and of any
VECTOR-typed children — the VECTOR-content disjunct only bypasses the
near-square test, never the 48-unit size limit. -/
theorem c3_amended (ty : String) (cs : Option (List RawNode)) :
    isLikelyIcon (some 48) (some 48) ty cs = true
      ∧ isLikelyIcon (some 49) (some 49) ty cs = false := by
  constructor
  · simp only [isLikelyIcon, truthyQ]
    norm_num
  · exact isLikelyIcon_49 ty cs

theorem hugFix_width (p : AltProps) (b : Bool) : (hugFix p b).width = p.width := by
  rw [hugFix_eq]

theorem hugFix_height (p : AltProps) (b : Bool) : (hugFix p b).height = p.height := by
  rw [hugFix_eq]

theorem isLikelyIcon_degenerate (w h : Option ℚ) (ty : String)
    (cs : Option (List RawNode))
    (hwh : w = none ∨ w = some 0 ∨ h = none ∨ h = some 0) :
    isLikelyIcon w h ty cs = false := by
  rcases hwh with h1 | h1 | h1 | h1 <;> subst h1 <;> simp [isLikelyIcon, truthyQ]

/-- C10: a node whose width or height is absent or zero is never classified
as an icon by `isLikelyIcon`; consequently a surviving node with such
dimensions can carry `canBeFlattened = true` only through the
VECTOR-with-geometry path. -/
theorem c10_degenerate_dims_only_vector_path :
    (∀ (w h : Option ℚ) (ty : String) (cs : Option (List RawNode)),
      (w = none ∨ w = some 0 ∨ h = none ∨ h = some 0) →
      isLikelyIcon w h ty cs = false)
    ∧ (∀ (p : RawProps) (k : Option (List RawNode)) (pctx : Option ParentCtx)
        (s : Settings) (m : NameMap) (a : AltNode) (r' : RawNode) (m' : NameMap),
        processRawNode (.mk p k) pctx s m = .ok (.singleOut a, r', m') →
        (a.props.width = none ∨ a.props.width = some 0
          ∨ a.props.height = none ∨ a.props.height = some 0) →
        a.props.canBeFlattened = true →
        p.type = "VECTOR" ∧ geomNonempty p.fillGeometry = true) := by
  refine ⟨isLikelyIcon_degenerate, ?_⟩
  intro p k pctx s m a r' m' h hdim hcbf
  obtain ⟨b, hbn, hid, hvis, hg, hcases⟩ := processRawNode_single_inv p k pctx s m a r' m' h
  rcases hcases with ⟨hk, ha⟩ | ⟨hk, ha⟩ | ⟨c0, cs, hk, ha⟩ <;>
    subst ha <;>
    simp only [AltNode.props, hugFix_width, hugFix_height, hugFix_canBeFlattened,
      stage1_width, stage1_height, stage1_canBeFlattened, RawNode.props,
      RawNode.children] at hdim hcbf <;>
  · cases hev : s.embedVectors with
    | false => simp only [hev, Bool.false_eq_true, if_false] at hcbf
    | true =>
      simp only [hev, if_true] at hcbf
      cases hvg : (p.type == "VECTOR" && geomNonempty p.fillGeometry) with
      | true =>
        simp only [Bool.and_eq_true, beq_iff_eq] at hvg
        exact hvg
      | false =>
        simp only [hvg, Bool.false_eq_true, if_false,
          isLikelyIcon_degenerate _ _ _ _ hdim] at hcbf
        simp at hcbf

/-- The C10 witness input: a VECTOR with geometry whose box has zero width. -/
def c10props : RawProps :=
  { rpBase with
    id := some "vz"
    type := "VECTOR"
    absoluteBoundingBox := some ⟨0, 0, 0, 20⟩
    fillGeometry := some [⟨"NONZERO", "M0 0"⟩] }

/-- The node the C10 witness input produces. -/
def c10out : AltNode :=
  .mk (hugFix (stage1 (.mk c10props none) none sVec "unnamed") false) none

theorem c10_witness :
    isLikelyIcon none (some 1) "FRAME" none = false
      ∧ c10props.type = "VECTOR" ∧ geomNonempty c10props.fillGeometry = true := by
  constructor
  · exact c10_degenerate_dims_only_vector_path.1 none (some 1) "FRAME" none (Or.inl rfl)
  · exact c10_degenerate_dims_only_vector_path.2 c10props none none sVec NameMap.empty
      c10out (.mk (mutProps c10props (stage1 (.mk c10props none) none sVec "unnamed")) none)
      (NameMap.set NameMap.empty "unnamed" 1)
      (by rw [processRawNode_noKids c10props none sVec NameMap.empty "unnamed" rfl rfl rfl]; rfl)
      (Or.inr (Or.inl (by
        simp [c10out, AltNode.props, hugFix_width, stage1_width, c10props, rpBase,
          RawNode.props])))
      (by simp [c10out, AltNode.props, hugFix_canBeFlattened, stage1_canBeFlattened,
        c10props, rpBase, sVec, geomNonempty, RawNode.props, RawNode.children, parentFlat])

theorem hugFix_x (p : AltProps) (b : Bool) : (hugFix p b).x = p.x := by rw [hugFix_eq]

theorem hugFix_y (p : AltProps) (b : Bool) : (hugFix p b).y = p.y := by rw [hugFix_eq]

theorem hugFix_layoutMode (p : AltProps) (b : Bool) :
    (hugFix p b).layoutMode = p.layoutMode := by rw [hugFix_eq]

theorem hugFix_layoutGrow (p : AltProps) (b : Bool) :
    (hugFix p b).layoutGrow = p.layoutGrow := by rw [hugFix_eq]

theorem hugFix_primaryAxisAlignItems (p : AltProps) (b : Bool) :
    (hugFix p b).primaryAxisAlignItems = p.primaryAxisAlignItems := by rw [hugFix_eq]

theorem hugFix_counterAxisAlignItems (p : AltProps) (b : Bool) :
    (hugFix p b).counterAxisAlignItems = p.counterAxisAlignItems := by rw [hugFix_eq]

theorem hugFix_paddingLeft (p : AltProps) (b : Bool) :
    (hugFix p b).paddingLeft = p.paddingLeft := by rw [hugFix_eq]

theorem hugFix_paddingRight (p : AltProps) (b : Bool) :
    (hugFix p b).paddingRight = p.paddingRight := by rw [hugFix_eq]

theorem hugFix_paddingTop (p : AltProps) (b : Bool) :
    (hugFix p b).paddingTop = p.paddingTop := by rw [hugFix_eq]

theorem hugFix_paddingBottom (p : AltProps) (b : Bool) :
    (hugFix p b).paddingBottom = p.paddingBottom := by rw [hugFix_eq]

theorem hugFix_primaryAxisSizingMode (p : AltProps) (b : Bool) :
    (hugFix p b).primaryAxisSizingMode = p.primaryAxisSizingMode := by rw [hugFix_eq]

theorem hugFix_counterAxisSizingMode (p : AltProps) (b : Bool) :
    (hugFix p b).counterAxisSizingMode = p.counterAxisSizingMode := by rw [hugFix_eq]

theorem hugFix_uniqueName (p : AltProps) (b : Bool) :
    (hugFix p b).uniqueName = p.uniqueName := by rw [hugFix_eq]

theorem hugFix_name (p : AltProps) (b : Bool) :
    (hugFix p b).name = p.name := by rw [hugFix_eq]

theorem hugFix_id (p : AltProps) (b : Bool) :
    (hugFix p b).id = p.id := by rw [hugFix_eq]

theorem hugFix_cumulativeRotation (p : AltProps) (b : Bool) :
    (hugFix p b).cumulativeRotation = p.cumulativeRotation := by rw [hugFix_eq]

theorem hugFix_rotation (p : AltProps) (b : Bool) :
    (hugFix p b).rotation = p.rotation := by rw [hugFix_eq]

theorem hugFix_layoutSizingHorizontal (p : AltProps) (b : Bool) :
    (hugFix p b).layoutSizingHorizontal =
      (if p.layoutSizingHorizontal == "HUG" && !b then "FIXED"
       else p.layoutSizingHorizontal) := by rw [hugFix_eq]

theorem hugFix_layoutSizingVertical (p : AltProps) (b : Bool) :
    (hugFix p b).layoutSizingVertical =
      (if p.layoutSizingVertical == "HUG" && !b then "FIXED"
       else p.layoutSizingVertical) := by rw [hugFix_eq]

/-- C9: for every surviving (non-spliced) node carrying an absolute bounding
box, width and height are copied verbatim; x and y are the box coordinates
minus the parent's box coordinates when the parent has a box, and 0 when the
node is processed as a root. -/
theorem c9_relative_positioning (p : RawProps) (k : Option (List RawNode))
    (pctx : Option ParentCtx) (s : Settings) (m : NameMap) (a : AltNode)
    (r' : RawNode) (m' : NameMap) (bb : BBox)
    (h : processRawNode (.mk p k) pctx s m = .ok (.singleOut a, r', m'))
    (hbb : p.absoluteBoundingBox = some bb) :
    a.props.width = some bb.width ∧ a.props.height = some bb.height
      ∧ (pctx = none → a.props.x = some 0 ∧ a.props.y = some 0)
      ∧ (∀ pc pb, pctx = some pc → pc.bbox = some pb →
          a.props.x = some (bb.x - pb.x) ∧ a.props.y = some (bb.y - pb.y)) := by
  obtain ⟨b, hbn, hid, hvis, hg, hcases⟩ := processRawNode_single_inv p k pctx s m a r' m' h
  rcases hcases with ⟨hk, ha⟩ | ⟨hk, ha⟩ | ⟨c0, cs, hk, ha⟩ <;>
    subst ha <;>
    simp only [AltNode.props, hugFix_width, hugFix_height, hugFix_x, hugFix_y,
      stage1_width, stage1_height, stage1_x, stage1_y, RawNode.props, hbb,
      Option.map_some] <;>
    refine ⟨rfl, rfl, ?_, ?_⟩ <;>
    first
    | (intro hp; subst hp; exact ⟨rfl, rfl⟩)
    | (intro pc pb hp hpb; subst hp; simp only [Option.some_bind, hpb]; exact ⟨trivial, trivial⟩)

/-- The shared leaf input of several witnesses: a bare RECTANGLE with an id
and a bounding box, every other field absent. -/
def c9props : RawProps :=
  { rpBase with id := some "r9", absoluteBoundingBox := some ⟨50, 50, 30, 40⟩ }

/-- The node the C9 witness input produces. -/
def c9out : AltNode :=
  .mk (hugFix (stage1 (.mk c9props none) none sBase "unnamed") false) none

theorem c9_witness :
    c9out.props.width = some 30 ∧ c9out.props.height = some 40
      ∧ c9out.props.x = some 0 ∧ c9out.props.y = some 0 := by
  have H := c9_relative_positioning c9props none none sBase NameMap.empty c9out
    (.mk (mutProps c9props (stage1 (.mk c9props none) none sBase "unnamed")) none)
    (NameMap.set NameMap.empty "unnamed" 1) ⟨50, 50, 30, 40⟩
    (by rw [processRawNode_noKids c9props none sBase NameMap.empty "unnamed" rfl rfl rfl]; rfl)
    rfl
  exact ⟨H.1, H.2.1, (H.2.2.1 rfl).1, (H.2.2.1 rfl).2⟩

/-- C2 amended: the nine layout fields `layoutMode`, both sizing axes,
`layoutGrow`, both alignments and the four paddings are always defined on a
surviving node, with the fixed defaults when absent upstream; but
`itemSpacing`, `primaryAxisSizingMode` and `counterAxisSizingMode` are NOT
defaulted — they are carried over verbatim and stay undefined when the raw
node lacks them. -/
theorem c2_layout_defaults (p : RawProps) (k : Option (List RawNode))
    (pctx : Option ParentCtx) (s : Settings) (m : NameMap) (a : AltNode)
    (r' : RawNode) (m' : NameMap)
    (h : processRawNode (.mk p k) pctx s m = .ok (.singleOut a, r', m')) :
    (p.layoutMode = none → a.props.layoutMode = "NONE")
      ∧ (p.layoutSizingHorizontal = none → a.props.layoutSizingHorizontal = "FIXED")
      ∧ (p.layoutSizingVertical = none → a.props.layoutSizingVertical = "FIXED")
      ∧ (p.layoutGrow = none → a.props.layoutGrow = 0)
      ∧ (p.primaryAxisAlignItems = none → a.props.primaryAxisAlignItems = "MIN")
      ∧ (p.counterAxisAlignItems = none → a.props.counterAxisAlignItems = "MIN")
      ∧ (p.paddingLeft = none → a.props.paddingLeft = 0)
      ∧ (p.paddingRight = none → a.props.paddingRight = 0)
      ∧ (p.paddingTop = none → a.props.paddingTop = 0)
      ∧ (p.paddingBottom = none → a.props.paddingBottom = 0)
      ∧ a.props.itemSpacing = p.itemSpacing
      ∧ a.props.primaryAxisSizingMode = p.primaryAxisSizingMode
      ∧ a.props.counterAxisSizingMode = p.counterAxisSizingMode := by
  obtain ⟨b, hbn, hid, hvis, hg, hcases⟩ := processRawNode_single_inv p k pctx s m a r' m' h
  rcases hcases with ⟨hk, ha⟩ | ⟨hk, ha⟩ | ⟨c0, cs, hk, ha⟩ <;>
    subst ha <;>
    simp only [AltNode.props, hugFix_layoutMode, hugFix_layoutSizingHorizontal,
      hugFix_layoutSizingVertical, hugFix_layoutGrow, hugFix_primaryAxisAlignItems,
      hugFix_counterAxisAlignItems, hugFix_paddingLeft, hugFix_paddingRight,
      hugFix_paddingTop, hugFix_paddingBottom, hugFix_itemSpacing,
      hugFix_primaryAxisSizingMode, hugFix_counterAxisSizingMode,
      stage1_layoutMode, stage1_layoutSizingHorizontal, stage1_layoutSizingVertical,
      stage1_layoutGrow, stage1_primaryAxisAlignItems, stage1_counterAxisAlignItems,
      stage1_paddingLeft, stage1_paddingRight, stage1_paddingTop, stage1_paddingBottom,
      stage1_itemSpacing, stage1_primaryAxisSizingMode, stage1_counterAxisSizingMode,
      RawNode.props] <;>
    refine ⟨?_, ?_, ?_, ?_, ?_, ?_, ?_, ?_, ?_, ?_, by trivial, by trivial, by trivial⟩ <;>
    (intro hnone; simp [hnone, jsOrStr, jsOrQn])

/-- The C2/C5 counterexample input: a bare leaf with only an id. -/
def c2in : RawNode := .mk { rpBase with id := some "r2" } none

/-- The node the C2/C5 counterexample input produces. -/
def c2out : AltNode :=
  .mk (hugFix (stage1 c2in none sBase "unnamed") false) none

/-- The mutated raw result of the C2/C5 counterexample input. -/
def c2raw : RawNode := .mk (mutProps c2in.props (stage1 c2in none sBase "unnamed")) none

/-- The name counter after the C2/C5 counterexample input. -/
def c2map : NameMap := NameMap.set NameMap.empty "unnamed" 1

/-- C2 counterexample: a surviving node whose raw input lacks `itemSpacing`,
`primaryAxisSizingMode` and `counterAxisSizingMode` also lacks all three on
the output (they stay undefined), contrary to the claim that they are always
defined. -/
theorem c2_counterexample :
    processRawNode c2in none sBase NameMap.empty = .ok (.singleOut c2out, c2raw, c2map)
      ∧ c2out.props.itemSpacing = none
      ∧ c2out.props.primaryAxisSizingMode = none
      ∧ c2out.props.counterAxisSizingMode = none := by
  refine ⟨?_, ?_, ?_, ?_⟩
  · rw [show c2in = .mk c2in.props none from rfl,
      processRawNode_noKids c2in.props none sBase NameMap.empty "unnamed" rfl rfl rfl]
    rfl
  · simp [c2out, AltNode.props, hugFix_itemSpacing, stage1_itemSpacing, c2in, rpBase,
      RawNode.props]
  · simp [c2out, AltNode.props, hugFix_primaryAxisSizingMode,
      stage1_primaryAxisSizingMode, c2in, rpBase, RawNode.props]
  · simp [c2out, AltNode.props, hugFix_counterAxisSizingMode,
      stage1_counterAxisSizingMode, c2in, rpBase, RawNode.props]

theorem c2_witness :
    c2out.props.layoutMode = "NONE" ∧ c2out.props.layoutSizingHorizontal = "FIXED"
      ∧ c2out.props.layoutSizingVertical = "FIXED" ∧ c2out.props.layoutGrow = 0
      ∧ c2out.props.primaryAxisAlignItems = "MIN"
      ∧ c2out.props.counterAxisAlignItems = "MIN"
      ∧ c2out.props.paddingLeft = 0 ∧ c2out.props.paddingRight = 0
      ∧ c2out.props.paddingTop = 0 ∧ c2out.props.paddingBottom = 0
      ∧ c2out.props.itemSpacing = none := by
  have H := c2_layout_defaults c2in.props none none sBase NameMap.empty c2out c2raw c2map
    (by rw [processRawNode_noKids c2in.props none sBase NameMap.empty "unnamed" rfl rfl rfl]
        rfl)
  exact ⟨H.1 rfl, H.2.1 rfl, H.2.2.1 rfl, H.2.2.2.1 rfl, H.2.2.2.2.1 rfl,
    H.2.2.2.2.2.1 rfl, H.2.2.2.2.2.2.1 rfl, H.2.2.2.2.2.2.2.1 rfl,
    H.2.2.2.2.2.2.2.2.1 rfl, H.2.2.2.2.2.2.2.2.2.1 rfl,
    H.2.2.2.2.2.2.2.2.2.2.1⟩

/-- C5 amended: `isRelative` is set (to true) only on nodes whose raw
`children` array is present and non-empty; on such nodes it equals
`layoutMode == NONE || some processed child is ABSOLUTE-positioned`, and on
leaves (children absent or empty) it is never set, even when `layoutMode` is
NONE. -/
theorem c5_isRelative_semantics (p : RawProps) (k : Option (List RawNode))
    (pctx : Option ParentCtx) (s : Settings) (m : NameMap) (a : AltNode)
    (r' : RawNode) (m' : NameMap)
    (h : processRawNode (.mk p k) pctx s m = .ok (.singleOut a, r', m')) :
    ((k = none ∨ k = some []) → a.props.isRelative = false)
      ∧ (∀ c0 cs, k = some (c0 :: cs) →
          a.props.isRelative = (a.props.layoutMode == "NONE"
            || (a.children.getD []).any fun x => x.props.layoutPositioning == some "ABSOLUTE")) := by
  obtain ⟨b, hbn, hid, hvis, hg, hcases⟩ := processRawNode_single_inv p k pctx s m a r' m' h
  rcases hcases with ⟨hk, ha⟩ | ⟨hk, ha⟩ | ⟨c0, cs, hk, ha⟩ <;> subst hk <;> subst ha
  · refine ⟨fun _ => ?_, fun c0 cs hke => by simp at hke⟩
    simp only [AltNode.props, hugFix_isRelative, stage1_isRelative]
  · refine ⟨fun _ => ?_, fun c0 cs hke => by simp at hke⟩
    simp only [AltNode.props, hugFix_isRelative, stage1_isRelative]
  · refine ⟨fun hke => by rcases hke with hke | hke <;> simp at hke, fun c0' cs' hke => ?_⟩
    simp only [Option.some_injective _ hke]
    simp only [AltNode.props, AltNode.children, hugFix_isRelative, hugFix_layoutMode,
      Option.getD_some]

/-- C5 counterexample: a leaf node with `layoutMode` absent (so defaulted to
NONE) does not get `isRelative` set — the flag assignment only runs for nodes
with a non-empty raw child list, contrary to the claim. -/
theorem c5_counterexample :
    processRawNode c2in none sBase NameMap.empty = .ok (.singleOut c2out, c2raw, c2map)
      ∧ c2out.props.layoutMode = "NONE" ∧ c2out.props.isRelative = false := by
  refine ⟨?_, ?_, ?_⟩
  · rw [show c2in = .mk c2in.props none from rfl,
      processRawNode_noKids c2in.props none sBase NameMap.empty "unnamed" rfl rfl rfl]
    rfl
  · simp [c2out, AltNode.props, hugFix_layoutMode, stage1_layoutMode, c2in, rpBase,
      RawNode.props, jsOrStr]
  · simp [c2out, AltNode.props, hugFix_isRelative, stage1_isRelative]

theorem c5_witness : c2out.props.isRelative = false := by
  have H := c5_isRelative_semantics c2in.props none none sBase NameMap.empty c2out c2raw c2map
    (by rw [processRawNode_noKids c2in.props none sBase NameMap.empty "unnamed" rfl rfl rfl]
        rfl)
  exact H.1 (Or.inl rfl)

theorem processRawNode_leaf (p : RawProps) (pctx : Option ParentCtx) (s : Settings)
    (m : NameMap) (b : String)
    (hid : jsTruthyStr p.id = true) (hvis : (p.visible == some false) = false)
    (hname : jsBaseName p.name = .ok b) (hng : (p.type == "GROUP") = false) :
    processRawNode (.mk p none) pctx s m =
      .ok (.singleOut (.mk (hugFix (stage1 (.mk p none) pctx s (mkUnique b (m b))) false) none),
        .mk (mutProps p (stage1 (.mk p none) pctx s (mkUnique b (m b)))) none,
        NameMap.set m b (m b + 1)) := by
  rw [processRawNode_noKids p pctx s m b hid hvis hname]
  simp only [hng, Bool.false_eq_true, if_false]

theorem addCumulative_id (d : ℚ) (a : AltNode) :
    (addCumulative d a).props.id = a.props.id := by cases a; rfl

theorem addCumulative_uname (d : ℚ) (a : AltNode) :
    (addCumulative d a).uname = a.uname := by cases a; rfl

theorem addCumulative_name (d : ℚ) (a : AltNode) :
    (addCumulative d a).props.name = a.props.name := by cases a; rfl

theorem addCumulative_children (d : ℚ) (a : AltNode) :
    (addCumulative d a).children = a.children := by cases a; rfl

theorem addCumulative_cum (d : ℚ) (a : AltNode) :
    (addCumulative d a).props.cumulativeRotation =
      (if a.props.cumulativeRotation = 0 then 0 else a.props.cumulativeRotation) + d := by
  cases a; rfl

/-- C1 (code-bug evidence): a GROUP with raw rotation π radians and one
rotation-free child is spliced away as claimed, but the spliced child ends up
with `cumulativeRotation = -360`, not `-180`: the group's converted rotation
is inherited through `cumulativeRotation` while the child is processed, and
then added a second time by the splice-time redistribution. -/
theorem c1_group_rotation_applied_twice :
    outNames (processRawNode c1group none sBase NameMap.empty) = [(some "c", "child")]
      ∧ outCums (processRawNode c1group none sBase NameMap.empty) = [-360] := by
  rw [show c1group = .mk c1groupProps (some [c1child]) from rfl,
    processRawNode_kids c1groupProps c1child [] none sBase NameMap.empty "grp" rfl rfl rfl]
  set P := stage1 (.mk c1groupProps (some [c1child])) none sBase
    (mkUnique "grp" (NameMap.empty "grp")) with hP
  have hrot : P.rotation = -180 := by
    rw [hP, stage1_rotation]
    simp only [RawNode.props, c1groupProps]
    rw [if_neg mathPI_ne_zero, mathPI_conv]
  have hcum : P.cumulativeRotation = -180 := by
    rw [hP, stage1_cumulativeRotation]
    simp only [RawNode.props, c1groupProps]
    rw [if_neg mathPI_ne_zero, mathPI_conv]
    simp [parentCum]
  have hmk : markedKids c1groupProps [c1child] P sBase = [c1child] := by
    simp [markedKids, shouldMarkKids, sBase]
  rw [hmk]
  set ctx : ParentCtx := ⟨c1groupProps.absoluteBoundingBox, P.cumulativeRotation,
    P.canBeFlattened⟩ with hctx
  set m1 : NameMap := NameMap.set NameMap.empty "grp" (NameMap.empty "grp" + 1) with hm1
  have hchild : processRawNode c1child (some ctx) sBase m1 =
      .ok (.singleOut (.mk (hugFix (stage1 (.mk c1child.props none) (some ctx) sBase
          (mkUnique "child" (m1 "child"))) false) none),
        .mk (mutProps c1child.props (stage1 (.mk c1child.props none) (some ctx) sBase
          (mkUnique "child" (m1 "child")))) none,
        NameMap.set m1 "child" (m1 "child" + 1)) :=
    processRawNode_leaf c1child.props (some ctx) sBase m1 "child" rfl rfl rfl rfl
  rw [processChildren_ok c1child [] ctx sBase m1 _ _ _ rfl hchild, processChildren_nil]
  simp only [show (c1groupProps.type == "GROUP") = true from rfl, if_true]
  rw [if_neg (by rw [hrot]; norm_num)]
  set cAlt := AltNode.mk (hugFix (stage1 (.mk c1child.props none) (some ctx) sBase
    (mkUnique "child" (m1 "child"))) false) none with hcAlt
  have hccum : cAlt.props.cumulativeRotation = -180 := by
    rw [hcAlt]
    simp only [AltNode.props, hugFix_cumulativeRotation, stage1_cumulativeRotation,
      RawNode.props]
    simp only [c1child, RawNode.props, rpBase]
    simp only [parentCum, hcum]
    norm_num
  have hcid : cAlt.props.id = some "c" := by
    rw [hcAlt]
    simp only [AltNode.props, hugFix_id, stage1_id, RawNode.props, c1child]
  have hcun : cAlt.uname = "child" := by
    rw [hcAlt]
    simp only [AltNode.uname, AltNode.props, hugFix_uniqueName, stage1_uniqueName]
    simp [hm1, NameMap.set, NameMap.empty, mkUnique]
  refine ⟨?_, ?_⟩
  · simp only [outNames, ProcOut.toList, List.append_nil, List.map,
      addCumulative_id, addCumulative_uname]
    rw [hcid, hcun]
  · simp only [outCums, ProcOut.toList, List.append_nil, List.map, addCumulative_cum]
    rw [hccum, hrot]
    norm_num

theorem processRawNode_error_inv (p : RawProps) (k : Option (List RawNode))
    (pctx : Option ParentCtx) (s : Settings) (m : NameMap)
    (h : processRawNode (.mk p k) pctx s m = .error ()) :
    jsTruthyStr p.id = true ∧ (p.visible == some false) = false
      ∧ jsBaseName p.name = .error () := by
  cases hid : jsTruthyStr p.id with
  | false => rw [processRawNode_noId _ _ _ _ _ hid] at h; simp at h
  | true =>
  cases hvis : (p.visible == some false) with
  | true => rw [processRawNode_invisible _ _ _ _ _ hid hvis] at h; simp at h
  | false =>
  cases hbn : jsBaseName p.name with
  | error e => cases e; exact ⟨rfl, rfl, rfl⟩
  | ok b =>
    exfalso
    cases k with
    | none =>
      rw [processRawNode_noKids _ _ _ _ _ hid hvis hbn] at h
      cases hg : (p.type == "GROUP") <;> simp [hg] at h
    | some l =>
      cases l with
      | nil =>
        rw [processRawNode_emptyKids _ _ _ _ _ hid hvis hbn] at h
        cases hg : (p.type == "GROUP") <;> simp [hg] at h
      | cons c0 cs =>
        rw [processRawNode_kids _ _ _ _ _ _ _ hid hvis hbn] at h
        cases hg : (p.type == "GROUP") <;> simp [hg] at h

theorem processRawNode_error_any (r : RawNode) (pctx : Option ParentCtx) (s : Settings)
    (m m2 : NameMap) (h : processRawNode r pctx s m = .error ()) :
    processRawNode r pctx s m2 = .error () := by
  cases r with
  | mk p k =>
    obtain ⟨hid, hvis, hbn⟩ := processRawNode_error_inv p k pctx s m h
    exact processRawNode_badName p k pctx s m2 hid hvis hbn

/-- C8: if processing one child of a parent's child list throws, that child
alone is dropped: the produced child list (and the resulting name counter)
are exactly those obtained from the same list without the failing child, so
all successfully processed siblings appear in their original order and no
partial node is emitted for the failure. -/
theorem c8_child_failure_isolated (l1 l2 : List RawNode) (c : RawNode)
    (ctx : ParentCtx) (s : Settings) (m : NameMap)
    (hc : processRawNode c (some ctx) s m = .error ()) :
    (processChildren (l1 ++ c :: l2) ctx s m).1 = (processChildren (l1 ++ l2) ctx s m).1
      ∧ (processChildren (l1 ++ c :: l2) ctx s m).2.2
        = (processChildren (l1 ++ l2) ctx s m).2.2 := by
  have hcany : ∀ mm, processRawNode c (some ctx) s mm = .error () :=
    fun mm => processRawNode_error_any c (some ctx) s m mm hc
  clear hc
  induction l1 generalizing m with
  | nil =>
    simp only [List.nil_append]
    cases helig : (c.props.visible != some false && !c.props.flattenedIntoParent) with
    | true => rw [processChildren_err c l2 ctx s m helig (hcany m)]; exact ⟨rfl, rfl⟩
    | false => rw [processChildren_skip c l2 ctx s m helig]; exact ⟨rfl, rfl⟩
  | cons d l1' ih =>
    simp only [List.cons_append]
    cases helig : (d.props.visible != some false && !d.props.flattenedIntoParent) with
    | false =>
      rw [processChildren_skip d (l1' ++ c :: l2) ctx s m helig,
        processChildren_skip d (l1' ++ l2) ctx s m helig]
      exact ⟨(ih m).1, (ih m).2⟩
    | true =>
      cases hres : processRawNode d (some ctx) s m with
      | ok v =>
        obtain ⟨out, d2, m2⟩ := v
        rw [processChildren_ok d (l1' ++ c :: l2) ctx s m out d2 m2 helig hres,
          processChildren_ok d (l1' ++ l2) ctx s m out d2 m2 helig hres]
        exact ⟨by rw [(ih m2).1], (ih m2).2⟩
      | error e =>
        cases e
        rw [processChildren_err d (l1' ++ c :: l2) ctx s m helig hres,
          processChildren_err d (l1' ++ l2) ctx s m helig hres]
        exact ⟨(ih m).1, (ih m).2⟩

/-- A sibling used by the C8 witness. -/
def c8good1 : RawNode := .mk { rpBase with id := some "g1", name := some (.str "A") } none

/-- Another sibling used by the C8 witness. -/
def c8good2 : RawNode := .mk { rpBase with id := some "g2", name := some (.str "B") } none

/-- The failing child of the C8 witness: its `name` is present but not a
string, so `rawNode.name?.trim()` throws. -/
def c8bad : RawNode := .mk { rpBase with id := some "bad", name := some .nonString } none

/-- A parent context used by the C8 witness. -/
def c8ctx : ParentCtx := ⟨none, 0, false⟩

theorem c8_witness :
    (processChildren [c8good1, c8bad, c8good2] c8ctx sBase NameMap.empty).1
      = (processChildren [c8good1, c8good2] c8ctx sBase NameMap.empty).1 := by
  have H := c8_child_failure_isolated [c8good1] [c8good2] c8bad c8ctx sBase NameMap.empty
    (processRawNode_badName _ _ _ _ _ rfl rfl rfl)
  exact H.1

theorem stage1_fills (r : RawNode) (pctx : Option ParentCtx) (s : Settings)
    (u : String) :
    (stage1 r pctx s u).fills =
      (if r.props.fills.isSome then
        (if s.useColorVariables then (r.props.fills.getD []).map colorVarPaint
         else r.props.fills.getD []).map
          (imageFillPaint (r.props.absoluteBoundingBox.map (·.width))
            (r.props.absoluteBoundingBox.map (·.height)))
       else
        (if s.useColorVariables then (r.props.fills.getD []).map colorVarPaint
         else r.props.fills.getD [])) := rfl

theorem stage1_strokes (r : RawNode) (pctx : Option ParentCtx) (s : Settings)
    (u : String) :
    (stage1 r pctx s u).strokes =
      (if s.useColorVariables then (r.props.strokes.getD []).map colorVarPaint
       else (r.props.strokes.getD [])) := rfl

theorem erasePaint_colorVarPaint (q : Paint) :
    erasePaint (colorVarPaint q) = erasePaint q := by
  unfold colorVarPaint erasePaint
  split <;> rfl

theorem erasePaint_imageFillPaint (w h : Option ℚ) (q : Paint) :
    erasePaint (imageFillPaint w h q) = erasePaint q := by
  unfold imageFillPaint erasePaint
  split <;> rfl

theorem eraseList_map_erasePaint_chain (l : List Paint) (w h : Option ℚ) (ucv : Bool) :
    ((if ucv then l.map colorVarPaint else l).map (imageFillPaint w h)).map erasePaint
      = l.map erasePaint := by
  cases ucv <;>
    simp [List.map_map, Function.comp_def, erasePaint_imageFillPaint,
      erasePaint_colorVarPaint]

theorem eraseList_map_colorVar (l : List Paint) (ucv : Bool) :
    (if ucv then l.map colorVarPaint else l).map erasePaint = l.map erasePaint := by
  cases ucv <;> simp [List.map_map, Function.comp_def, erasePaint_colorVarPaint]

theorem eraseList_chain_comp (l : List Paint) (w h : Option ℚ) (ucv : Bool) :
    List.map (erasePaint ∘ imageFillPaint w h) (if ucv then l.map colorVarPaint else l)
      = l.map erasePaint := by
  cases ucv <;>
    simp [List.map_map, Function.comp_def, erasePaint_imageFillPaint,
      erasePaint_colorVarPaint]

theorem eraseProps_mutProps (p : RawProps) (k : Option (List RawNode))
    (pctx : Option ParentCtx) (s : Settings) (u : String) :
    eraseProps (mutProps p (stage1 (.mk p k) pctx s u)) = eraseProps p := by
  unfold eraseProps mutProps
  rw [stage1_fills, stage1_strokes]
  cases hf : p.fills <;> cases hs : p.strokes <;>
    simp [RawNode.props, hf, hs, eraseList_map_erasePaint_chain, eraseList_map_colorVar,
      eraseList_chain_comp]

theorem eraseNode_markIfVector (c : RawNode) :
    eraseNode (markIfVector c) = eraseNode c := by
  unfold markIfVector
  split
  · unfold markOne
    cases c with
    | mk p cs => cases cs <;> rfl
  · rfl

theorem eraseList_map_markIfVector (l : List RawNode) :
    eraseList (l.map markIfVector) = eraseList l := by
  induction l with
  | nil => rfl
  | cons c cs ih =>
    simp only [List.map, eraseList]
    rw [eraseNode_markIfVector, ih]

theorem eraseList_markedKids (p : RawProps) (l : List RawNode) (P : AltProps)
    (s : Settings) : eraseList (markedKids p l P s) = eraseList l := by
  unfold markedKids
  split
  · exact eraseList_map_markIfVector l
  · rfl

theorem rsizeList_markedKids (p : RawProps) (l : List RawNode) (P : AltProps)
    (s : Settings) : rsizeList (markedKids p l P s) = rsizeList l := by
  unfold markedKids
  split
  · exact rsizeList_map_markIfVector l
  · rfl

theorem c6_core (N : ℕ) :
    (∀ (r : RawNode) (pctx : Option ParentCtx) (s : Settings) (m : NameMap)
      (out : ProcOut) (r' : RawNode) (m' : NameMap),
      r.rsize ≤ N → processRawNode r pctx s m = .ok (out, r', m') →
      eraseNode r' = eraseNode r)
    ∧ (∀ (cs : List RawNode) (ctx : ParentCtx) (s : Settings) (m : NameMap),
      rsizeList cs ≤ N →
      eraseList (processChildren cs ctx s m).2.1 = eraseList cs) := by
  induction N using Nat.strong_induction_on with
  | _ N ih =>
  constructor
  · intro r pctx s m out r' m' hsz h
    cases r with
    | mk p k =>
      cases hid : jsTruthyStr p.id with
      | false =>
        rw [processRawNode_noId _ _ _ _ _ hid] at h
        simp only [Except.ok.injEq, Prod.mk.injEq] at h
        rw [← h.2.1]
      | true =>
      cases hvis : (p.visible == some false) with
      | true =>
        rw [processRawNode_invisible _ _ _ _ _ hid hvis] at h
        simp only [Except.ok.injEq, Prod.mk.injEq] at h
        rw [← h.2.1]
      | false =>
      cases hbn : jsBaseName p.name with
      | error e =>
        cases e
        rw [processRawNode_badName _ _ _ _ _ hid hvis hbn] at h
        simp at h
      | ok b =>
      cases k with
      | none =>
        rw [processRawNode_noKids _ _ _ _ _ hid hvis hbn] at h
        simp only [Except.ok.injEq, Prod.mk.injEq] at h
        rw [← h.2.1]
        show RawNode.mk (eraseProps (mutProps p _)) none = RawNode.mk (eraseProps p) none
        rw [eraseProps_mutProps]
      | some l =>
        cases l with
        | nil =>
          rw [processRawNode_emptyKids _ _ _ _ _ hid hvis hbn] at h
          simp only [Except.ok.injEq, Prod.mk.injEq] at h
          rw [← h.2.1]
          show RawNode.mk (eraseProps (mutProps p _)) (some []) =
            RawNode.mk (eraseProps p) (some [])
          rw [eraseProps_mutProps]
        | cons c0 cs0 =>
          rw [processRawNode_kids _ _ _ _ _ _ _ hid hvis hbn] at h
          have hr' : r' = .mk (mutProps p (stage1 (.mk p (some (c0 :: cs0))) pctx s (mkUnique b (m b))))
              (some (processChildren (markedKids p (c0 :: cs0)
                  (stage1 (.mk p (some (c0 :: cs0))) pctx s (mkUnique b (m b))) s)
                ⟨p.absoluteBoundingBox,
                  (stage1 (.mk p (some (c0 :: cs0))) pctx s (mkUnique b (m b))).cumulativeRotation,
                  (stage1 (.mk p (some (c0 :: cs0))) pctx s (mkUnique b (m b))).canBeFlattened⟩ s
                (NameMap.set m b (m b + 1))).2.1) := by
            cases hg : (p.type == "GROUP") <;>
              simp only [hg, Bool.false_eq_true, if_false, if_true, Except.ok.injEq,
                Prod.mk.injEq] at h <;>
              exact h.2.1.symm
          rw [hr']
          show RawNode.mk (eraseProps (mutProps p _)) (some (eraseList _)) =
            RawNode.mk (eraseProps p) (some (eraseList (c0 :: cs0)))
          rw [eraseProps_mutProps]
          have hsz2 : rsizeList (markedKids p (c0 :: cs0)
              (stage1 (.mk p (some (c0 :: cs0))) pctx s (mkUnique b (m b))) s) < N := by
            rw [rsizeList_markedKids]
            have : (RawNode.mk p (some (c0 :: cs0))).rsize = 1 + rsizeList (c0 :: cs0) := rfl
            omega
          rw [(ih _ hsz2).2 _ _ _ _ le_rfl, eraseList_markedKids]
  · intro cs ctx s m hsz
    cases cs with
    | nil => rw [processChildren_nil]
    | cons c rest =>
      have hszc : c.rsize < N ∧ rsizeList rest < N := by
        have : rsizeList (c :: rest) = 1 + c.rsize + rsizeList rest := rfl
        omega
      cases helig : (c.props.visible != some false && !c.props.flattenedIntoParent) with
      | false =>
        rw [processChildren_skip c rest ctx s m helig]
        show eraseNode c :: eraseList _ = eraseNode c :: eraseList rest
        rw [(ih _ hszc.2).2 _ _ _ _ le_rfl]
      | true =>
        cases hres : processRawNode c (some ctx) s m with
        | ok v =>
          obtain ⟨out0, c2, m2⟩ := v
          rw [processChildren_ok c rest ctx s m out0 c2 m2 helig hres]
          show eraseNode c2 :: eraseList _ = eraseNode c :: eraseList rest
          rw [(ih _ hszc.1).1 _ _ _ _ _ _ _ le_rfl hres,
            (ih _ hszc.2).2 _ _ _ _ le_rfl]
        | error e =>
          cases e
          rw [processChildren_err c rest ctx s m helig hres]
          show eraseNode c :: eraseList _ = eraseNode c :: eraseList rest
          rw [(ih _ hszc.2).2 _ _ _ _ le_rfl]

/-- C6 amended: processing leaves the raw input tree unchanged except for the
three fields the code writes in place — `resolvedImageUrl` on fills of type
IMAGE, `variableColorName` on SOLID paints when color variables are enabled,
and the `_flattenedIntoParent` consumed-mark on vector children: erasing
exactly those fields from the mutated tree gives back the erased original. -/
theorem c6_raw_tree_mutation_frame (r : RawNode) (pctx : Option ParentCtx)
    (s : Settings) (m : NameMap) (out : ProcOut) (r' : RawNode) (m' : NameMap)
    (h : processRawNode r pctx s m = .ok (out, r', m')) :
    eraseNode r' = eraseNode r :=
  (c6_core r.rsize).1 r pctx s m out r' m' le_rfl h

/-- An IMAGE fill carrying a remote URL, used by the C6 counterexample. -/
def c6fill : Paint :=
  { type := "IMAGE", visible := none, color := none, boundVariableColorId := none
    base64Url := none, imageUrl := some "http://img", resolvedImageUrl := none
    variableColorName := none }

/-- The C6 counterexample input: a leaf with one IMAGE fill. -/
def c6in : RawNode := .mk { rpBase with id := some "m6", fills := some [c6fill] } none

/-- The mutated raw tree the C6 counterexample input leaves behind. -/
def c6raw : RawNode :=
  .mk (mutProps c6in.props (stage1 (.mk c6in.props none) none sBase "unnamed")) none

/-- Projection: the `resolvedImageUrl` of each raw fill of a node. -/
def rawFillsResolved (r : RawNode) : List (Option String) :=
  (r.props.fills.getD []).map fun f => f.resolvedImageUrl

/-- C6 counterexample: processing a node with an IMAGE fill mutates the raw
fill object in place — its `resolvedImageUrl` goes from undefined to the
image URL — so raw IMAGE fills are NOT left unmodified, contrary to the
claim. -/
theorem c6_counterexample :
    processRawNode c6in none sBase NameMap.empty =
      .ok (.singleOut (.mk (hugFix (stage1 (.mk c6in.props none) none sBase "unnamed") false) none),
        c6raw, NameMap.set NameMap.empty "unnamed" 1)
      ∧ rawFillsResolved c6in = [none]
      ∧ rawFillsResolved c6raw = [some "http://img"] := by
  refine ⟨?_, rfl, ?_⟩
  · rw [show c6in = .mk c6in.props none from rfl,
      processRawNode_leaf c6in.props none sBase NameMap.empty "unnamed" rfl rfl rfl rfl]
    rfl
  · simp only [c6raw, rawFillsResolved, RawNode.props, mutProps, stage1_fills]
    simp [c6in, rpBase, c6fill, sBase, imageFillPaint, jsTruthyStr]

theorem c6_witness : eraseNode c6raw = eraseNode c6in := by
  have H := c6_raw_tree_mutation_frame (.mk c6in.props none) none sBase NameMap.empty
    (.singleOut (.mk (hugFix (stage1 (.mk c6in.props none) none sBase "unnamed") false) none))
    c6raw (NameMap.set NameMap.empty "unnamed" 1)
    (by rw [processRawNode_leaf c6in.props none sBase NameMap.empty "unnamed" rfl rfl rfl rfl]
        rfl)
  exact H

theorem altForest_append (l1 l2 : List AltNode) :
    altForest (l1 ++ l2) = altForest l1 ++ altForest l2 := by
  induction l1 with
  | nil => rfl
  | cons a l ih =>
    show AltNode.subnodes a ++ altForest (l ++ l2)
      = (AltNode.subnodes a ++ altForest l) ++ altForest l2
    rw [ih, List.append_assoc]

theorem outIds_append (l1 l2 : List AltNode) :
    outIds (l1 ++ l2) = outIds l1 ++ outIds l2 := by
  simp [outIds, altForest_append, List.filterMap_append]

theorem outIds_cons (p : AltProps) (cs : Option (List AltNode)) (l : List AltNode) :
    outIds (AltNode.mk p cs :: l) =
      p.id.toList ++ (outIds (cs.getD []) ++ outIds l) := by
  cases cs <;> cases hid : p.id <;>
    simp [outIds, altForest, AltNode.subnodes, List.filterMap_append,
      List.filterMap_cons, hid, AltNode.props]

theorem outIds_map_addCumulative (d : ℚ) (l : List AltNode) :
    outIds (l.map (addCumulative d)) = outIds l := by
  induction l with
  | nil => rfl
  | cons a rest ih =>
    cases a with
    | mk p cs =>
      simp only [List.map]
      rw [show addCumulative d (AltNode.mk p cs) =
        AltNode.mk { p with cumulativeRotation :=
          (if p.cumulativeRotation = 0 then 0 else p.cumulativeRotation) + d } cs from rfl]
      rw [outIds_cons, outIds_cons, ih]

/-- The subtree-of relation on raw nodes (a node, one of its children, one of
their children, and so on). -/
inductive IsSubtree : RawNode → RawNode → Prop where
  | refl (r : RawNode) : IsSubtree r r
  | child {s c r : RawNode} : c ∈ r.childList → IsSubtree s c → IsSubtree s r

theorem rawIds_mem_list (c : RawNode) (l : List RawNode) (hc : c ∈ l) :
    rawIds c ⊆ rawIdsList l := by
  induction l with
  | nil => cases hc
  | cons d rest ih =>
    cases hc with
    | head => exact fun i hi => by simp only [rawIdsList]; exact List.mem_append_left _ hi
    | tail _ hmem =>
      exact fun i hi => by
        simp only [rawIdsList]
        exact List.mem_append_right _ (ih hmem hi)

theorem rawIds_subtree (s' r : RawNode) (h : IsSubtree s' r) : rawIds s' ⊆ rawIds r := by
  induction h with
  | refl => exact fun i hi => hi
  | child hc hsub ihsub =>
    rename_i c0 r0
    intro i hi
    cases r0 with
    | mk p k =>
      cases k with
      | none => simp [RawNode.childList, RawNode.children] at hc
      | some l =>
        simp only [RawNode.childList, RawNode.children, Option.getD_some] at hc
        show i ∈ rawIds (.mk p (some l))
        simp only [rawIds]
        exact List.mem_append_right _ (rawIds_mem_list c0 l hc (ihsub hi))

theorem vis_sub_raw (N : ℕ) :
    (∀ r : RawNode, r.rsize ≤ N → visIds r ⊆ rawIds r)
    ∧ (∀ l : List RawNode, rsizeList l ≤ N → visIdsList l ⊆ rawIdsList l) := by
  induction N using Nat.strong_induction_on with
  | _ N ih =>
  constructor
  · intro r hsz
    cases r with
    | mk p k =>
      cases k with
      | none =>
        intro i hi
        simp only [visIds] at hi
        split at hi
        · cases hi
        · exact hi
      | some l =>
        intro i hi
        simp only [visIds] at hi
        split at hi
        · cases hi
        · simp only [rawIds]
          rcases List.mem_append.mp hi with h1 | h1
          · exact List.mem_append_left _ h1
          · refine List.mem_append_right _ ?_
            have hlt : rsizeList l < N := by
              have : (RawNode.mk p (some l)).rsize = 1 + rsizeList l := rfl
              omega
            exact (ih _ hlt).2 l le_rfl h1
  · intro l hsz
    cases l with
    | nil => intro i hi; cases hi
    | cons c rest =>
      intro i hi
      have hc : c.rsize < N ∧ rsizeList rest < N := by
        have : rsizeList (c :: rest) = 1 + c.rsize + rsizeList rest := rfl
        omega
      simp only [visIdsList] at hi
      simp only [rawIdsList]
      rcases List.mem_append.mp hi with h1 | h1
      · exact List.mem_append_left _ ((ih _ hc.1).1 c le_rfl h1)
      · exact List.mem_append_right _ ((ih _ hc.2).2 rest le_rfl h1)

theorem visIds_subset_rawIds (r : RawNode) : visIds r ⊆ rawIds r :=
  (vis_sub_raw r.rsize).1 r le_rfl

theorem visIdsList_subset_rawIdsList (l : List RawNode) : visIdsList l ⊆ rawIdsList l :=
  (vis_sub_raw (rsizeList l)).2 l le_rfl

theorem c7_disjoint_aux (s' c : RawNode) :
    ∀ (l : List RawNode), c ∈ l → (rawIdsList l).Nodup →
    ((rawIds c).Nodup → ∀ i ∈ rawIds s', i ∉ visIds c) →
    ∀ i ∈ rawIds s', i ∈ rawIds c → i ∉ visIdsList l := by
  intro l
  induction l with
  | nil => intro hc; cases hc
  | cons d rest ih =>
    intro hc hnd hIH i hi hic hmem
    simp only [rawIdsList, List.nodup_append] at hnd
    simp only [visIdsList] at hmem
    cases hc with
    | head =>
      rcases List.mem_append.mp hmem with h1 | h1
      · exact hIH hnd.1 i hi h1
      · exact hnd.2.2 hic (visIdsList_subset_rawIdsList rest h1)
    | tail _ hmemtl =>
      rcases List.mem_append.mp hmem with h1 | h1
      · exact hnd.2.2 (visIds_subset_rawIds d h1)
          (rawIds_mem_list c rest hmemtl hic)
      · exact ih hmemtl hnd.2.1 hIH i hi hic h1

theorem c7_invisible_not_in_visIds (s' r : RawNode) (hsub : IsSubtree s' r)
    (hinv : s'.props.visible = some false) (hnd : (rawIds r).Nodup) :
    ∀ i ∈ rawIds s', i ∉ visIds r := by
  induction hsub with
  | refl =>
    intro i hi hmem
    cases s' with
    | mk p k =>
      simp only [RawNode.props] at hinv
      cases k <;> simp [visIds, hinv] at hmem
  | child hc hsub' ihsub =>
    rename_i c0 r0
    intro i hi hmem
    cases r0 with
    | mk p k =>
      cases k with
      | none => simp [RawNode.childList, RawNode.children] at hc
      | some l =>
        simp only [RawNode.childList, RawNode.children, Option.getD_some] at hc
        simp only [rawIds, List.nodup_append] at hnd
        simp only [visIds] at hmem
        split at hmem
        · cases hmem
        · rcases List.mem_append.mp hmem with h1 | h1
          · exact hnd.2.2 h1
              (rawIds_mem_list c0 l hc (rawIds_subtree s' c0 hsub' hi))
          · exact c7_disjoint_aux s' c0 l hc hnd.2.1
              ihsub i hi (rawIds_subtree s' c0 hsub' hi) h1

theorem visIds_markIfVector (c : RawNode) : visIds (markIfVector c) = visIds c := by
  unfold markIfVector
  split
  · unfold markOne
    cases c with
    | mk p cs => cases cs <;> rfl
  · rfl

theorem visIdsList_map_markIfVector (l : List RawNode) :
    visIdsList (l.map markIfVector) = visIdsList l := by
  induction l with
  | nil => rfl
  | cons c cs ih =>
    simp only [List.map, visIdsList]
    rw [visIds_markIfVector, ih]

theorem visIdsList_markedKids (p : RawProps) (l : List RawNode) (P : AltProps)
    (s : Settings) : visIdsList (markedKids p l P s) = visIdsList l := by
  unfold markedKids
  split
  · exact visIdsList_map_markIfVector l
  · rfl

theorem c7_core (N : ℕ) :
    (∀ (r : RawNode) (pctx : Option ParentCtx) (s : Settings) (m : NameMap)
      (out : ProcOut) (r' : RawNode) (m' : NameMap),
      r.rsize ≤ N → processRawNode r pctx s m = .ok (out, r', m') →
      outIds out.toList ⊆ visIds r)
    ∧ (∀ (cs : List RawNode) (ctx : ParentCtx) (s : Settings) (m : NameMap),
      rsizeList cs ≤ N →
      outIds (processChildren cs ctx s m).1 ⊆ visIdsList cs) := by
  induction N using Nat.strong_induction_on with
  | _ N ih =>
  constructor
  · intro r pctx s m out r' m' hsz h
    cases r with
    | mk p k =>
      cases hid : jsTruthyStr p.id with
      | false =>
        rw [processRawNode_noId _ _ _ _ _ hid] at h
        simp only [Except.ok.injEq, Prod.mk.injEq] at h
        rw [← h.1]
        intro i hi
        cases hi
      | true =>
      cases hvis : (p.visible == some false) with
      | true =>
        rw [processRawNode_invisible _ _ _ _ _ hid hvis] at h
        simp only [Except.ok.injEq, Prod.mk.injEq] at h
        rw [← h.1]
        intro i hi
        cases hi
      | false =>
      cases hbn : jsBaseName p.name with
      | error e =>
        cases e
        rw [processRawNode_badName _ _ _ _ _ hid hvis hbn] at h
        simp at h
      | ok b =>
      cases k with
      | none =>
        rw [processRawNode_noKids _ _ _ _ _ hid hvis hbn] at h
        cases hg : (p.type == "GROUP") <;>
          simp only [hg, Bool.false_eq_true, if_false, if_true, Except.ok.injEq,
            Prod.mk.injEq] at h <;>
          rw [← h.1]
        · simp only [ProcOut.toList]
          rw [outIds_cons]
          simp only [hugFix_id, stage1_id, RawNode.props, Option.getD_none]
          intro i hi
          have hi2 : p.id = some i ∨ i ∈ outIds [] := by simpa using hi
          simp only [visIds, hvis, Bool.false_eq_true, if_false]
          rcases hi2 with h1 | h1
          · simp [h1]
          · simp [outIds, altForest] at h1
        · intro i hi
          simp [outIds, altForest] at hi
      | some l =>
        cases l with
        | nil =>
          rw [processRawNode_emptyKids _ _ _ _ _ hid hvis hbn] at h
          cases hg : (p.type == "GROUP") <;>
            simp only [hg, Bool.false_eq_true, if_false, if_true, Except.ok.injEq,
              Prod.mk.injEq] at h <;>
            rw [← h.1]
          · simp only [ProcOut.toList]
            rw [outIds_cons]
            simp only [hugFix_id, stage1_id, RawNode.props, Option.getD_some]
            intro i hi
            simp only [visIds, hvis, Bool.false_eq_true, if_false]
            simp only [outIds, altForest, List.filterMap_nil, List.append_nil] at hi
            simp only [visIdsList]
            simpa using hi
          · intro i hi
            simp [outIds, altForest] at hi
        | cons c0 cs0 =>
          rw [processRawNode_kids _ _ _ _ _ _ _ hid hvis hbn] at h
          have hltl : rsizeList (markedKids p (c0 :: cs0)
              (stage1 (.mk p (some (c0 :: cs0))) pctx s (mkUnique b (m b))) s) < N := by
            rw [rsizeList_markedKids]
            have : (RawNode.mk p (some (c0 :: cs0))).rsize = 1 + rsizeList (c0 :: cs0) := rfl
            omega
          have hsub := (ih _ hltl).2 (markedKids p (c0 :: cs0)
              (stage1 (.mk p (some (c0 :: cs0))) pctx s (mkUnique b (m b))) s)
            ⟨p.absoluteBoundingBox,
              (stage1 (.mk p (some (c0 :: cs0))) pctx s (mkUnique b (m b))).cumulativeRotation,
              (stage1 (.mk p (some (c0 :: cs0))) pctx s (mkUnique b (m b))).canBeFlattened⟩ s
            (NameMap.set m b (m b + 1)) le_rfl
          rw [visIdsList_markedKids] at hsub
          cases hg : (p.type == "GROUP") <;>
            simp only [hg, Bool.false_eq_true, if_false, if_true, Except.ok.injEq,
              Prod.mk.injEq] at h <;>
            rw [← h.1]
          · simp only [ProcOut.toList]
            rw [outIds_cons]
            simp only [hugFix_id, stage1_id, RawNode.props, Option.getD_some]
            intro i hi
            simp only [visIds, hvis, Bool.false_eq_true, if_false]
            rcases List.mem_append.mp hi with h1 | h1
            · exact List.mem_append_left _ h1
            · refine List.mem_append_right _ ?_
              rcases List.mem_append.mp h1 with h2 | h2
              · exact hsub h2
              · simp [outIds, altForest] at h2
          · simp only [ProcOut.toList]
            intro i hi
            simp only [visIds, hvis, Bool.false_eq_true, if_false]
            refine List.mem_append_right _ ?_
            refine hsub ?_
            split at hi
            · exact hi
            · rw [outIds_map_addCumulative] at hi
              exact hi
  · intro cs ctx s m hsz
    cases cs with
    | nil =>
      rw [processChildren_nil]
      intro i hi
      cases hi
    | cons c rest =>
      have hc : c.rsize < N ∧ rsizeList rest < N := by
        have : rsizeList (c :: rest) = 1 + c.rsize + rsizeList rest := rfl
        omega
      cases helig : (c.props.visible != some false && !c.props.flattenedIntoParent) with
      | false =>
        rw [processChildren_skip c rest ctx s m helig]
        intro i hi
        simp only [visIdsList]
        exact List.mem_append_right _ ((ih _ hc.2).2 rest ctx s m le_rfl hi)
      | true =>
        cases hres : processRawNode c (some ctx) s m with
        | ok v =>
          obtain ⟨out0, c2, m2⟩ := v
          rw [processChildren_ok c rest ctx s m out0 c2 m2 helig hres]
          intro i hi
          rw [outIds_append] at hi
          simp only [visIdsList]
          rcases List.mem_append.mp hi with h1 | h1
          · exact List.mem_append_left _
              ((ih _ hc.1).1 c (some ctx) s m out0 c2 m2 le_rfl hres h1)
          · exact List.mem_append_right _ ((ih _ hc.2).2 rest ctx s m2 le_rfl h1)
        | error e =>
          cases e
          rw [processChildren_err c rest ctx s m helig hres]
          intro i hi
          simp only [visIdsList]
          exact List.mem_append_right _ ((ih _ hc.2).2 rest ctx s m le_rfl hi)

/-- C7: if a subtree root has `visible = false`, then (under unique raw ids)
no id from that whole subtree — the invisible node's or any descendant's,
whatever the descendants' own visibility — occurs among the produced nodes. -/
theorem c7_invisible_subtree_pruned (r s' : RawNode) (pctx : Option ParentCtx)
    (s : Settings) (m : NameMap) (out : ProcOut) (r' : RawNode) (m' : NameMap)
    (hsub : IsSubtree s' r) (hinv : s'.props.visible = some false)
    (hnd : (rawIds r).Nodup)
    (h : processRawNode r pctx s m = .ok (out, r', m')) :
    ∀ i ∈ rawIds s', i ∉ outIds out.toList :=
  fun i hi hmem =>
    c7_invisible_not_in_visIds s' r hsub hinv hnd i hi
      ((c7_core r.rsize).1 r pctx s m out r' m' le_rfl h hmem)

/-- A visible grandchild below an invisible node, for the C7 witness. -/
def c7grand : RawNode := .mk { rpBase with id := some "g7" } none

/-- An invisible child with a visible grandchild, for the C7 witness. -/
def c7inv : RawNode :=
  .mk { rpBase with id := some "j7", visible := some false } (some [c7grand])

/-- The root props of the C7 witness input. -/
def c7rootProps : RawProps := { rpBase with id := some "rt7" }

/-- The C7 witness input: a visible root with an invisible child subtree. -/
def c7root : RawNode := .mk c7rootProps (some [c7inv])

/-- Projection: the ids of all nodes produced by a processing result. -/
def outIdsOf (res : Except Unit (ProcOut × RawNode × NameMap)) : List String :=
  match res with
  | .ok (out, _, _) => outIds out.toList
  | .error _ => []

theorem c7_witness :
    "g7" ∉ outIdsOf (processRawNode c7root none sBase NameMap.empty) := by
  intro hmem
  cases hres : processRawNode c7root none sBase NameMap.empty with
  | error e =>
    rw [hres] at hmem
    simp [outIdsOf] at hmem
  | ok v =>
    obtain ⟨out0, r0, m0⟩ := v
    rw [hres] at hmem
    simp only [outIdsOf] at hmem
    refine c7_invisible_subtree_pruned c7root c7inv none sBase NameMap.empty out0 r0 m0
      (IsSubtree.child ?_ (IsSubtree.refl c7inv)) rfl ?_ hres "g7" ?_ hmem
    · simp [c7root, RawNode.childList, RawNode.children]
    · simp only [c7root, c7rootProps, c7inv, c7grand, rawIds, rawIdsList, RawNode.props,
        rpBase, Option.toList_some]
      simp
    · simp only [c7inv, c7grand, rawIds, rawIdsList, RawNode.props, rpBase,
        Option.toList_some]
      simp


/-- Decimal value of a digit string; inverts `natDec` and `pad2`. -/
def decVal (l : List Char) : ℕ :=
  l.foldl (fun acc c => 10 * acc + (c.toNat - 48)) 0

theorem decDigitChar_toNat (n : ℕ) (h : n < 10) :
    (decDigitChar n).toNat = 48 + n := by
  interval_cases n <;> decide

theorem decVal_append_digit (l : List Char) (c : Char) :
    decVal (l ++ [c]) = 10 * decVal l + (c.toNat - 48) := by
  unfold decVal
  rw [List.foldl_append]
  simp only [List.foldl_cons, List.foldl_nil]

theorem natDecAux_val (f : ℕ) : ∀ n, n < f → decVal (natDecAux f n) = n := by
  induction f with
  | zero => intro n h; omega
  | succ f ih =>
    intro n h
    simp only [natDecAux]
    split
    · rename_i h10
      show decVal [decDigitChar n] = n
      unfold decVal
      simp only [List.foldl_cons, List.foldl_nil]
      rw [decDigitChar_toNat n h10]
      omega
    · rename_i h10
      push_neg at h10
      rw [decVal_append_digit, ih (n / 10) (by omega)]
      rw [decDigitChar_toNat _ (Nat.mod_lt _ (by omega))]
      omega

theorem natDec_val (n : ℕ) : decVal (natDec n).data = n := by
  show decVal (natDecAux (n + 1) n) = n
  exact natDecAux_val (n + 1) n (by omega)

theorem decVal_zeros (k : ℕ) (l : List Char) :
    decVal (List.replicate k '0' ++ l) = decVal l := by
  induction k with
  | zero => rfl
  | succ k ih =>
    have h0 : List.replicate (k + 1) '0' ++ l = '0' :: (List.replicate k '0' ++ l) := rfl
    rw [h0]
    unfold decVal
    rw [List.foldl_cons]
    have h1 : (10 * 0 + ('0'.toNat - 48)) = 0 := by decide
    rw [h1]
    exact ih

theorem str_data_append (a b : String) : (a ++ b).data = a.data ++ b.data := by
  cases a; cases b; rfl

theorem pad2_val (n : ℕ) : decVal (pad2 n).data = n := by
  have h : (pad2 n).data
      = List.replicate (2 - (natDec n).length) '0' ++ (natDec n).data := by
    show (String.mk (List.replicate (2 - (natDec n).length) '0') ++ natDec n).data = _
    rw [str_data_append]
  rw [h, decVal_zeros, natDec_val]

theorem pad2_inj (a b : ℕ) (h : pad2 a = pad2 b) : a = b := by
  have hv := pad2_val a
  rw [h, pad2_val] at hv
  omega

theorem mkUnique_inj (b : String) (c c' : ℕ) (h : mkUnique b c = mkUnique b c') :
    c = c' := by
  unfold mkUnique at h
  by_cases hc : c = 0 <;> by_cases hc' : c' = 0
  · omega
  · rw [if_pos hc, if_neg hc'] at h
    have hd := congrArg (fun s => s.data.length) h
    have h1 : ("_" : String).data.length = 1 := rfl
    simp only [str_data_append, List.length_append, h1] at hd
    omega
  · rw [if_neg hc, if_pos hc'] at h
    have hd := congrArg (fun s => s.data.length) h
    have h1 : ("_" : String).data.length = 1 := rfl
    simp only [str_data_append, List.length_append, h1] at hd
    omega
  · rw [if_neg hc, if_neg hc'] at h
    have hd := congrArg String.data h
    simp only [str_data_append] at hd
    rw [List.append_assoc, List.append_assoc] at hd
    have h2 := List.append_cancel_left hd
    have h3 := List.append_cancel_left h2
    refine pad2_inj c c' ?_
    cases hp : pad2 c
    cases hp' : pad2 c'
    rw [hp, hp'] at h3
    cases h3
    rfl


/-- The (base name, unique name) pair of every node of a produced forest,
in preorder. -/
def nameData (l : List AltNode) : List (String × String) :=
  (altForest l).map fun a => (abase a, a.uname)

theorem nameData_nil : nameData [] = [] := rfl

theorem nameData_append (l1 l2 : List AltNode) :
    nameData (l1 ++ l2) = nameData l1 ++ nameData l2 := by
  unfold nameData
  rw [altForest_append, List.map_append]

theorem nameData_cons (p : AltProps) (cs : Option (List AltNode)) (l : List AltNode) :
    nameData (AltNode.mk p cs :: l)
      = (abaseOfName p.name, p.uniqueName) :: (nameData (cs.getD []) ++ nameData l) := by
  cases cs with
  | none =>
    show nameData (AltNode.mk p none :: l)
      = (abaseOfName p.name, p.uniqueName) :: ([] ++ nameData l)
    unfold nameData
    simp [altForest, AltNode.subnodes, abase, AltNode.uname, AltNode.props]
  | some k =>
    show nameData (AltNode.mk p (some k) :: l)
      = (abaseOfName p.name, p.uniqueName) :: (nameData k ++ nameData l)
    unfold nameData
    simp [altForest, AltNode.subnodes, abase, AltNode.uname, AltNode.props,
      List.map_append]

theorem nameData_map_addCumulative (d : ℚ) (l : List AltNode) :
    nameData (l.map (addCumulative d)) = nameData l := by
  induction l with
  | nil => rfl
  | cons a l ih =>
    cases a with
    | mk p cs =>
      have haa : addCumulative d (AltNode.mk p cs)
          = AltNode.mk { p with cumulativeRotation :=
              (if p.cumulativeRotation = 0 then 0 else p.cumulativeRotation) + d } cs := rfl
      simp only [List.map_cons, haa]
      rw [nameData_cons, nameData_cons, ih]

/-- Counter monotonicity between two name-counter states. -/
def Mono (m m' : NameMap) : Prop := ∀ b, m b ≤ m' b

theorem mono_refl (m : NameMap) : Mono m m := fun _ => le_rfl

theorem mono_trans {m1 m2 m3 : NameMap} (h1 : Mono m1 m2) (h2 : Mono m2 m3) :
    Mono m1 m3 := fun b => le_trans (h1 b) (h2 b)

theorem mono_set (m : NameMap) (b : String) :
    Mono m (NameMap.set m b (m b + 1)) := by
  intro x
  unfold NameMap.set
  split
  · rename_i hx
    rw [hx]
    omega
  · exact le_rfl

/-- A produced (base, unique) pair generated while the counter of its base
name ranged between the states `m` and `m'`. -/
def InRange (m m' : NameMap) (pr : String × String) : Prop :=
  ∃ c, pr.2 = mkUnique pr.1 c ∧ m pr.1 ≤ c ∧ c < m' pr.1

/-- The naming invariant of a processing step from counter state `m` to `m'`:
every produced pair is in range, and produced pairs sharing a base name have
distinct unique names. -/
def NamesOK (m m' : NameMap) (l : List AltNode) : Prop :=
  (∀ pr ∈ nameData l, InRange m m' pr)
    ∧ (nameData l).Pairwise fun pr qr => pr.1 = qr.1 → pr.2 ≠ qr.2

theorem inRange_widen {m0 m m' m1 : NameMap} {pr : String × String}
    (h0 : Mono m0 m) (h1 : Mono m' m1) (h : InRange m m' pr) :
    InRange m0 m1 pr := by
  obtain ⟨c, he, hl, hu⟩ := h
  exact ⟨c, he, le_trans (h0 _) hl, lt_of_lt_of_le hu (h1 _)⟩

theorem namesOK_nil (m m' : NameMap) : NamesOK m m' [] := by
  unfold NamesOK
  rw [nameData_nil]
  exact ⟨fun pr h => absurd h (List.not_mem_nil pr), List.Pairwise.nil⟩

theorem namesOK_widen {m0 m m' m1 : NameMap} {l : List AltNode}
    (h0 : Mono m0 m) (h1 : Mono m' m1) (h : NamesOK m m' l) : NamesOK m0 m1 l :=
  ⟨fun pr hpr => inRange_widen h0 h1 (h.1 pr hpr), h.2⟩

theorem namesOK_congr {m m' : NameMap} {l1 l2 : List AltNode}
    (h : nameData l1 = nameData l2) (hok : NamesOK m m' l2) : NamesOK m m' l1 := by
  unfold NamesOK at hok ⊢
  rw [h]
  exact hok

theorem namesOK_append {m m1 m2 : NameMap} {l1 l2 : List AltNode}
    (hm1 : Mono m m1) (hm2 : Mono m1 m2)
    (h1 : NamesOK m m1 l1) (h2 : NamesOK m1 m2 l2) :
    NamesOK m m2 (l1 ++ l2) := by
  constructor
  · intro pr hpr
    rw [nameData_append] at hpr
    rcases List.mem_append.mp hpr with hm | hm
    · exact inRange_widen (mono_refl m) hm2 (h1.1 pr hm)
    · exact inRange_widen hm1 (mono_refl m2) (h2.1 pr hm)
  · rw [nameData_append, List.pairwise_append]
    refine ⟨h1.2, h2.2, ?_⟩
    intro pr hpr qr hqr hbase heq
    obtain ⟨c, hec, hlc, huc⟩ := h1.1 pr hpr
    obtain ⟨d, hed, hld, hud⟩ := h2.1 qr hqr
    rw [hec, hed, hbase] at heq
    have hcd := mkUnique_inj _ _ _ heq
    rw [hbase] at huc
    omega

theorem namesOK_node {m m2 : NameMap} {p : AltProps} {cs : Option (List AltNode)}
    (b : String)
    (hb : abaseOfName p.name = b) (hu : p.uniqueName = mkUnique b (m b))
    (hmono : Mono (NameMap.set m b (m b + 1)) m2)
    (hkids : NamesOK (NameMap.set m b (m b + 1)) m2 (cs.getD [])) :
    NamesOK m m2 [AltNode.mk p cs] := by
  have hset : NameMap.set m b (m b + 1) b = m b + 1 := by
    unfold NameMap.set
    rw [if_pos rfl]
  have hnd : nameData [AltNode.mk p cs]
      = (b, p.uniqueName) :: nameData (cs.getD []) := by
    rw [nameData_cons, hb, nameData_nil, List.append_nil]
  constructor
  · intro pr hpr
    rw [hnd] at hpr
    rcases List.mem_cons.mp hpr with hpr | hpr
    · subst hpr
      refine ⟨m b, hu, le_rfl, ?_⟩
      show m b < m2 b
      have h1 := hmono b
      rw [hset] at h1
      omega
    · exact inRange_widen (mono_set m b) (mono_refl m2) (hkids.1 pr hpr)
  · rw [hnd, List.pairwise_cons]
    refine ⟨?_, hkids.2⟩
    intro qr hqr hbase heq
    obtain ⟨d, hqe, hdl, _⟩ := hkids.1 qr hqr
    have hb2 : b = qr.1 := hbase
    rw [← hb2] at hqe hdl
    rw [hset] at hdl
    rw [hu, hqe] at heq
    have hcd := mkUnique_inj b (m b) d heq
    omega


theorem abaseOfName_ok (n : Option RawName) (b : String)
    (h : jsBaseName n = .ok b) : abaseOfName n = b := by
  cases n with
  | none =>
    simp only [jsBaseName, Except.ok.injEq] at h
    rw [← h]
    rfl
  | some rn =>
    cases rn with
    | str s =>
      simp only [jsBaseName, Except.ok.injEq] at h
      rw [← h]
      rfl
    | nonString => simp [jsBaseName] at h

theorem c4_core (N : ℕ) :
    (∀ (r : RawNode) (pctx : Option ParentCtx) (s : Settings) (m : NameMap)
      (out : ProcOut) (r' : RawNode) (m' : NameMap),
      r.rsize ≤ N → processRawNode r pctx s m = .ok (out, r', m') →
      Mono m m' ∧ NamesOK m m' out.toList)
    ∧ (∀ (cs : List RawNode) (ctx : ParentCtx) (s : Settings) (m : NameMap),
      rsizeList cs ≤ N →
      Mono m (processChildren cs ctx s m).2.2
        ∧ NamesOK m (processChildren cs ctx s m).2.2 (processChildren cs ctx s m).1) := by
  induction N using Nat.strong_induction_on with
  | _ N ih =>
  constructor
  · intro r pctx s m out r' m' hsz h
    cases r with
    | mk p k =>
      cases hid : jsTruthyStr p.id with
      | false =>
        rw [processRawNode_noId _ _ _ _ _ hid] at h
        simp only [Except.ok.injEq, Prod.mk.injEq] at h
        rw [← h.1, ← h.2.2]
        exact ⟨mono_refl m, namesOK_nil m m⟩
      | true =>
      cases hvis : (p.visible == some false) with
      | true =>
        rw [processRawNode_invisible _ _ _ _ _ hid hvis] at h
        simp only [Except.ok.injEq, Prod.mk.injEq] at h
        rw [← h.1, ← h.2.2]
        exact ⟨mono_refl m, namesOK_nil m m⟩
      | false =>
      cases hbn : jsBaseName p.name with
      | error e =>
        cases e
        rw [processRawNode_badName _ _ _ _ _ hid hvis hbn] at h
        simp at h
      | ok b =>
      cases k with
      | none =>
        rw [processRawNode_noKids _ _ _ _ _ hid hvis hbn] at h
        cases hg : (p.type == "GROUP") with
        | true =>
          simp only [hg, if_true, Except.ok.injEq, Prod.mk.injEq] at h
          rw [← h.1, ← h.2.2]
          exact ⟨mono_set m b, namesOK_nil _ _⟩
        | false =>
          simp only [hg, Bool.false_eq_true, if_false, Except.ok.injEq, Prod.mk.injEq] at h
          rw [← h.1, ← h.2.2]
          refine ⟨mono_set m b, namesOK_node b ?_ ?_ (mono_refl _) (namesOK_nil _ _)⟩
          · rw [hugFix_name]
            exact abaseOfName_ok _ _ hbn
          · rw [hugFix_uniqueName]
            rfl
      | some l =>
        cases l with
        | nil =>
          rw [processRawNode_emptyKids _ _ _ _ _ hid hvis hbn] at h
          cases hg : (p.type == "GROUP") with
          | true =>
            simp only [hg, if_true, Except.ok.injEq, Prod.mk.injEq] at h
            rw [← h.1, ← h.2.2]
            exact ⟨mono_set m b, namesOK_nil _ _⟩
          | false =>
            simp only [hg, Bool.false_eq_true, if_false, Except.ok.injEq, Prod.mk.injEq] at h
            rw [← h.1, ← h.2.2]
            refine ⟨mono_set m b, namesOK_node b ?_ ?_ (mono_refl _) (namesOK_nil _ _)⟩
            · rw [hugFix_name]
              exact abaseOfName_ok _ _ hbn
            · rw [hugFix_uniqueName]
              rfl
        | cons c0 cs0 =>
          rw [processRawNode_kids _ _ _ _ _ _ _ hid hvis hbn] at h
          have hsz2 : rsizeList (markedKids p (c0 :: cs0)
              (stage1 (.mk p (some (c0 :: cs0))) pctx s (mkUnique b (m b))) s) < N := by
            rw [rsizeList_markedKids]
            have hr : (RawNode.mk p (some (c0 :: cs0))).rsize = 1 + rsizeList (c0 :: cs0) := rfl
            omega
          have hK := (ih _ hsz2).2 (markedKids p (c0 :: cs0)
              (stage1 (.mk p (some (c0 :: cs0))) pctx s (mkUnique b (m b))) s)
            ⟨p.absoluteBoundingBox,
              (stage1 (.mk p (some (c0 :: cs0))) pctx s (mkUnique b (m b))).cumulativeRotation,
              (stage1 (.mk p (some (c0 :: cs0))) pctx s (mkUnique b (m b))).canBeFlattened⟩ s
            (NameMap.set m b (m b + 1)) le_rfl
          cases hg : (p.type == "GROUP") with
          | true =>
            simp only [hg, if_true, Except.ok.injEq, Prod.mk.injEq] at h
            rw [← h.1, ← h.2.2]
            refine ⟨mono_trans (mono_set m b) hK.1, ?_⟩
            show NamesOK m _ (ProcOut.multiOut _).toList
            split
            · exact namesOK_widen (mono_set m b) (mono_refl _) hK.2
            · exact namesOK_congr (nameData_map_addCumulative _ _)
                (namesOK_widen (mono_set m b) (mono_refl _) hK.2)
          | false =>
            simp only [hg, Bool.false_eq_true, if_false, Except.ok.injEq, Prod.mk.injEq] at h
            rw [← h.1, ← h.2.2]
            refine ⟨mono_trans (mono_set m b) hK.1, ?_⟩
            refine namesOK_node b ?_ ?_ hK.1 hK.2
            · rw [hugFix_name]
              exact abaseOfName_ok _ _ hbn
            · rw [hugFix_uniqueName]
              rfl
  · intro cs ctx s m hsz
    cases cs with
    | nil =>
      rw [processChildren_nil]
      exact ⟨mono_refl m, namesOK_nil m m⟩
    | cons c rest =>
      have hszc : c.rsize < N ∧ rsizeList rest < N := by
        have hr : rsizeList (c :: rest) = 1 + c.rsize + rsizeList rest := rfl
        omega
      cases helig : (c.props.visible != some false && !c.props.flattenedIntoParent) with
      | false =>
        rw [processChildren_skip c rest ctx s m helig]
        exact (ih _ hszc.2).2 rest ctx s m le_rfl
      | true =>
        cases hres : processRawNode c (some ctx) s m with
        | ok v =>
          obtain ⟨out0, c2, m2⟩ := v
          rw [processChildren_ok c rest ctx s m out0 c2 m2 helig hres]
          have hn := (ih _ hszc.1).1 c (some ctx) s m out0 c2 m2 le_rfl hres
          have hl := (ih _ hszc.2).2 rest ctx s m2 le_rfl
          exact ⟨mono_trans hn.1 hl.1, namesOK_append hn.1 hl.1 hn.2 hl.2⟩
        | error e =>
          cases e
          rw [processChildren_err c rest ctx s m helig hres]
          exact (ih _ hszc.2).2 rest ctx s m le_rfl


theorem c4_roots (roots : List RawNode) (s : Settings) : ∀ (m : NameMap),
    Mono m (processRootsLoop roots s m).2.2
      ∧ NamesOK m (processRootsLoop roots s m).2.2 (processRootsLoop roots s m).1 := by
  induction roots with
  | nil =>
    intro m
    rw [processRootsLoop_nil]
    exact ⟨mono_refl m, namesOK_nil m m⟩
  | cons r rest ih =>
    intro m
    cases hres : processRawNode r none s m with
    | ok v =>
      obtain ⟨out0, r2, m2⟩ := v
      rw [processRootsLoop_ok r rest s m out0 r2 m2 hres]
      have hn := (c4_core r.rsize).1 r none s m out0 r2 m2 le_rfl hres
      have hl := ih m2
      exact ⟨mono_trans hn.1 hl.1, namesOK_append hn.1 hl.1 hn.2 hl.2⟩
    | error e =>
      cases e
      rw [processRootsLoop_err r rest s m hres]
      exact ih m

/-- C4 amended: unique names are of the documented counter form and are
pairwise distinct among produced nodes that share a trimmed base name (the
counter is threaded through the whole call, so this holds across the whole
produced forest, not per parent); global pairwise distinctness over all
nodes fails, see the counterexample. -/
theorem c4_unique_names (roots : List RawNode) (s : Settings) :
    (∀ a ∈ altForest (processRawFigmaNodes roots s).1,
        ∃ c, a.uname = mkUnique (abase a) c)
      ∧ (altForest (processRawFigmaNodes roots s).1).Pairwise
          fun a a' => abase a = abase a' → a.uname ≠ a'.uname := by
  have h := c4_roots roots s NameMap.empty
  have he : (processRawFigmaNodes roots s).1 = (processRootsLoop roots s NameMap.empty).1 := rfl
  rw [he]
  constructor
  · intro a ha
    have hmem : (abase a, a.uname) ∈ nameData (processRootsLoop roots s NameMap.empty).1 := by
      unfold nameData
      exact List.mem_map_of_mem _ ha
    obtain ⟨c, hc, _, _⟩ := h.2.1 _ hmem
    exact ⟨c, hc⟩
  · have hpw := h.2.2
    unfold nameData at hpw
    rw [List.pairwise_map] at hpw
    exact hpw


/-- First C4 counterexample root: a leaf named "Rectangle_01". -/
def c4p1 : RawProps := { rpBase with id := some "r1", name := some (.str "Rectangle_01") }

/-- Second C4 counterexample root: a leaf named "Rectangle". -/
def c4p2 : RawProps := { rpBase with id := some "r2", name := some (.str "Rectangle") }

/-- Third C4 counterexample root: another leaf named "Rectangle". -/
def c4p3 : RawProps := { rpBase with id := some "r3", name := some (.str "Rectangle") }

def c4r1 : RawNode := .mk c4p1 none

def c4r2 : RawNode := .mk c4p2 none

def c4r3 : RawNode := .mk c4p3 none

/-- Counter state after the first C4 root. -/
def c4m1 : NameMap := NameMap.set NameMap.empty "Rectangle_01" 1

/-- Counter state after the second C4 root. -/
def c4m2 : NameMap := NameMap.set c4m1 "Rectangle" 1

/-- C4 counterexample: three sibling roots named "Rectangle_01", "Rectangle"
and "Rectangle" get unique names "Rectangle_01", "Rectangle", "Rectangle_01"
— the generated name of the second "Rectangle" collides with the verbatim
name of the first node, so the produced uniqueName values are NOT pairwise
distinct across the call. -/
theorem c4_counterexample :
    (processRawFigmaNodes [c4r1, c4r2, c4r3] sBase).1.map AltNode.uname
        = ["Rectangle_01", "Rectangle", "Rectangle_01"]
      ∧ ¬ ((processRawFigmaNodes [c4r1, c4r2, c4r3] sBase).1.map AltNode.uname).Nodup := by
  have e1 : processRawNode c4r1 none sBase NameMap.empty
      = .ok (.singleOut (.mk (hugFix (stage1 c4r1 none sBase "Rectangle_01") false) none),
          .mk (mutProps c4p1 (stage1 c4r1 none sBase "Rectangle_01")) none, c4m1) := by
    unfold c4r1
    rw [processRawNode_leaf c4p1 none sBase NameMap.empty "Rectangle_01" rfl rfl rfl rfl]
    rfl
  have e2 : processRawNode c4r2 none sBase c4m1
      = .ok (.singleOut (.mk (hugFix (stage1 c4r2 none sBase "Rectangle") false) none),
          .mk (mutProps c4p2 (stage1 c4r2 none sBase "Rectangle")) none, c4m2) := by
    unfold c4r2
    rw [processRawNode_leaf c4p2 none sBase c4m1 "Rectangle" rfl rfl rfl rfl]
    rfl
  have e3 : processRawNode c4r3 none sBase c4m2
      = .ok (.singleOut (.mk (hugFix (stage1 c4r3 none sBase "Rectangle_01") false) none),
          .mk (mutProps c4p3 (stage1 c4r3 none sBase "Rectangle_01")) none,
          NameMap.set c4m2 "Rectangle" 2) := by
    unfold c4r3
    rw [processRawNode_leaf c4p3 none sBase c4m2 "Rectangle" rfl rfl rfl rfl]
    rfl
  have hloop : (processRawFigmaNodes [c4r1, c4r2, c4r3] sBase).1
      = [.mk (hugFix (stage1 c4r1 none sBase "Rectangle_01") false) none,
         .mk (hugFix (stage1 c4r2 none sBase "Rectangle") false) none,
         .mk (hugFix (stage1 c4r3 none sBase "Rectangle_01") false) none] := by
    show (processRootsLoop [c4r1, c4r2, c4r3] sBase NameMap.empty).1 = _
    rw [processRootsLoop_ok _ _ _ _ _ _ _ e1, processRootsLoop_ok _ _ _ _ _ _ _ e2,
      processRootsLoop_ok _ _ _ _ _ _ _ e3, processRootsLoop_nil]
    rfl
  have hmap : (processRawFigmaNodes [c4r1, c4r2, c4r3] sBase).1.map AltNode.uname
      = ["Rectangle_01", "Rectangle", "Rectangle_01"] := by
    rw [hloop]
    rfl
  refine ⟨hmap, ?_⟩
  rw [hmap]
  decide
